import Mathlib

/-!
Verification of the boletin_automation_rpa repository.

This file gives a shallow embedding of the record-filter engine of
`streamlit_app.py` (the functions `get_renegociaciones_data`,
`get_liquidaciones_data` and `preprocess_dates`), of the acquisition
pipeline of `src/scraper/main.py` (`update_data`, `has_existing_data`,
`get_csv_data`) and of the direct-HTTP tier of `src/scraper/fallback.py`
(`download_csv_direct`), and proves the spec's claims about them.

Modelling conventions:
  * a pandas DataFrame is a list of column labels plus a list of rows,
    each row a list of cells parallel to the labels;
  * a column label is either a string or an integer (pandas allows both;
    calling `.lower()` on an integer label raises `AttributeError`);
  * a cell is a string, a parsed date, or null (NaN / NaT);
  * Python exceptions are modelled with `Except PyErr`; every `try/except`
    of the source becomes a `match` on the `Except` value;
  * `pd.to_datetime(..., errors='coerce')` is modelled by a concrete
    DD/MM/YYYY parser (the format of the cache file written by the
    scraper); unparseable cells coerce to null (NaT), exactly as pandas
    coerces them;
  * Python's `str.lower()` is modelled for the characters that actually
    occur in the data: ASCII letters plus the accented Spanish capitals.
-/

/-- A calendar date, as carried by a datetime cell. -/
structure Date where
  year : Nat
  month : Nat
  day : Nat
deriving DecidableEq, Repr

/-- Date order used by the `>=` / `<=` comparisons of the date filter. -/
def Date.leb (a b : Date) : Bool :=
  decide (a.year < b.year) ||
    (decide (a.year = b.year) &&
      (decide (a.month < b.month) ||
        (decide (a.month = b.month) && decide (a.day ≤ b.day))))

/-- A pandas column label: a string or an integer. -/
inductive Label where
  | str (s : String)
  | int (n : Int)
deriving DecidableEq, Repr

/-- A single cell of the table. -/
inductive Cell where
  | str (s : String)
  | date (d : Date)
  | null
deriving DecidableEq, Repr

/-- A Python exception, as far as this embedding needs to distinguish them. -/
inductive PyErr where
  | attributeError
deriving DecidableEq, Repr

/-- A pandas DataFrame: labelled columns and rows of cells. -/
structure DataFrame where
  cols : List Label
  rows : List (List Cell)
deriving DecidableEq, Repr

/-- `pd.DataFrame()`: the empty frame returned on every failure path. -/
def DataFrame.empty : DataFrame := ⟨[], []⟩

/-- Python `str.lower()` restricted to the characters occurring in the data:
ASCII capitals and the accented Spanish capitals. -/
def lowerChar (c : Char) : Char :=
  if 'A' ≤ c ∧ c ≤ 'Z' then Char.ofNat (c.toNat + 32)
  else if c = 'Á' then 'á'
  else if c = 'É' then 'é'
  else if c = 'Í' then 'í'
  else if c = 'Ó' then 'ó'
  else if c = 'Ú' then 'ú'
  else if c = 'Ñ' then 'ñ'
  else if c = 'Ü' then 'ü'
  else c

/-- Lower-case a whole string (model of Python `str.lower()`). -/
def lowerStr (s : String) : String := String.mk (s.data.map lowerChar)

/-- Whether the first char list starts the second one. -/
def startsChars : List Char → List Char → Bool
  | [], _ => true
  | _ :: _, [] => false
  | a :: as, b :: bs => decide (a = b) && startsChars as bs

/-- Whether the first char list occurs inside the second one. -/
def infixChars : List Char → List Char → Bool
  | needle, [] => needle.isEmpty
  | needle, c :: rest => startsChars needle (c :: rest) || infixChars needle rest

/-- Python's `needle in hay` substring test. -/
def containsSubstr (hay needle : String) : Bool :=
  infixChars needle.data hay.data

/-- A regex alternation `a|b` used with `str.contains`: the string matches
if any alternative occurs as a substring. -/
def containsAny (hay : String) (alts : List String) : Bool :=
  alts.any (fun p => containsSubstr hay p)

/-- Split a char list at every `/`. -/
def splitSlash : List Char → List Char → List (List Char)
  | [], cur => [cur.reverse]
  | c :: rest, cur =>
    if c = '/' then cur.reverse :: splitSlash rest [] else splitSlash rest (c :: cur)

/-- The value of a decimal digit character. -/
def digitVal (c : Char) : Option Nat :=
  if '0' ≤ c ∧ c ≤ '9' then some (c.toNat - 48) else none

/-- Parse a nonempty all-digit char list as a natural number. -/
def charsToNat? (cs : List Char) : Option Nat :=
  if cs.isEmpty then none
  else cs.foldl (fun acc c =>
    match acc, digitVal c with
    | some a, some d => some (a * 10 + d)
    | _, _ => none) (some 0)

/-- Model of `pd.to_datetime(s, errors='coerce')` on one string cell: the
DD/MM/YYYY format of the cache file; anything else coerces to NaT. -/
def parseDate (s : String) : Option Date :=
  match splitSlash s.data [] with
  | [ds, ms, ys] =>
    match charsToNat? ds, charsToNat? ms, charsToNat? ys with
    | some d, some m, some y =>
      if 1 ≤ d ∧ d ≤ 31 ∧ 1 ≤ m ∧ m ≤ 12 then some ⟨y, m, d⟩ else none
    | _, _, _ => none
  | _ => none

/-- Zero-padding used when a datetime cell is rendered back to text. -/
def pad2 (n : Nat) : String := if n < 10 then "0" ++ toString n else toString n

/-- `str(Timestamp)` rendering of a date cell. -/
def dateToStr (d : Date) : String :=
  toString d.year ++ "-" ++ pad2 d.month ++ "-" ++ pad2 d.day ++ " 00:00:00"

/-- `Series.astype(str)` on one cell. -/
def cellToStr : Cell → String
  | .str s => s
  | .date d => dateToStr d
  | .null => "NaT"

/-- `pd.to_datetime(cell, errors='coerce')` on one cell. -/
def toDatetimeCoerce : Cell → Cell
  | .str s => match parseDate s with
    | some d => .date d
    | none => .null
  | .date d => .date d
  | .null => .null

/-- Whether a cell already carries datetime data (a date or NaT). -/
def isDatetimeCell : Cell → Bool
  | .date _ => true
  | .null => true
  | .str _ => false

/-- Whether a column has datetime dtype: every cell is a date or NaT. -/
def isDatetimeDtype (cells : List Cell) : Bool :=
  cells.all isDatetimeCell

/-- The cell of a row under a column label (pandas label selection:
the first column carrying that label). -/
def rowCell (cols : List Label) (r : List Cell) (l : Label) : Cell :=
  match cols.findIdx? (fun c => decide (c = l)) with
  | some i => r.getD i Cell.null
  | none => Cell.null

/-- One whole column of a frame, by label. -/
def getCol (df : DataFrame) (l : Label) : List Cell :=
  df.rows.map (fun r => rowCell df.cols r l)

/-- In-place column assignment `df[l] = df[l].map f` (applied to the first
column carrying label `l`). -/
def mapCol (df : DataFrame) (l : Label) (f : Cell → Cell) : DataFrame :=
  match df.cols.findIdx? (fun c => decide (c = l)) with
  | some i => ⟨df.cols, df.rows.map (fun r => r.set i (f (r.getD i Cell.null)))⟩
  | none => df

/-- Boolean-mask row selection `df[mask]`. -/
def filterMask (rows : List (List Cell)) (mask : List Bool) : List (List Cell) :=
  ((rows.zip mask).filter (fun x => x.2)).map (fun x => x.1)

/-! ## Record filter engine (`streamlit_app.py`) -/

/-- Tokens locating the procedure-type column, tested on a lowercased name
(`'procedimiento' in col_lower and 'concursal' in col_lower`). -/
def procTok (l : String) : Bool :=
  containsSubstr l "procedimiento" && containsSubstr l "concursal"

/-- Tokens locating the publication-label column
(`'nombre' in col_lower and ('publicacion' in col_lower or 'publicación' in col_lower)`). -/
def pubTok (l : String) : Bool :=
  containsSubstr l "nombre" &&
    (containsSubstr l "publicacion" || containsSubstr l "publicación")

/-- Tokens locating the publication-date column in `preprocess_dates`. -/
def fechaTok (l : String) : Bool :=
  containsSubstr l "fecha" &&
    (containsSubstr l "publicacion" || containsSubstr l "publicación")

/-- `col.lower()` on a column label; an integer label has no `.lower`
and raises `AttributeError`. -/
def labelLower : Label → Except PyErr String
  | .str s => .ok (lowerStr s)
  | .int _ => .error .attributeError

/-- The first loop of `preprocess_dates`: find the date column and `break`
at the first hit. -/
def findFecha : List Label → Except PyErr (Option Label)
  | [] => .ok none
  | c :: rest => do
    let l ← labelLower c
    if fechaTok l then pure (some c) else findFecha rest

/-- `preprocess_dates` (streamlit_app.py:426-452): copy the frame, locate the
publication-date column (hardcoded fallback name if none), and convert it to
datetime with `errors='coerce'` unless it already has datetime dtype. -/
def preprocess_dates (df : DataFrame) : Except PyErr (DataFrame × Label) := do
  let dfCopy := df
  let fopt ← findFecha dfCopy.cols
  let fecha := fopt.getD (Label.str "Fecha Publicación")
  if fecha ∈ dfCopy.cols then
    if isDatetimeDtype (getCol dfCopy fecha) then
      pure (dfCopy, fecha)
    else
      pure (mapCol dfCopy fecha toDatetimeCoerce, fecha)
  else
    pure (dfCopy, fecha)

/-- The column-resolution loop of `get_renegociaciones_data`
(streamlit_app.py:322-327): one pass over the headers, assigning the
procedure column on a procedure-token hit and otherwise (`elif`) the
publication column on a publication-token hit; later hits overwrite
earlier ones, there is no `break`. -/
def findColsLoopRen :
    List Label → Option Label → Option Label → Except PyErr (Option Label × Option Label)
  | [], pc, pb => .ok (pc, pb)
  | c :: rest, pc, pb => do
    let l ← labelLower c
    if procTok l then findColsLoopRen rest (some c) pb
    else if pubTok l then findColsLoopRen rest pc (some c)
    else findColsLoopRen rest pc pb

/-- The exact-name fallback loop of `get_renegociaciones_data`
(streamlit_app.py:329-333): first column literally named
"Nombre Publicación" or "Nombre Publicacion", with `break`. -/
def findExactRen : List Label → Option Label
  | [] => none
  | c :: rest =>
    if c = Label.str "Nombre Publicación" ∨ c = Label.str "Nombre Publicacion" then some c
    else findExactRen rest

/-- Full column resolution of `get_renegociaciones_data`: the fuzzy loop,
then the exact-name fallback when the publication column is still unset. -/
def findColsRen (cols : List Label) : Except PyErr (Option Label × Option Label) := do
  let found ← findColsLoopRen cols none none
  match found.2 with
  | some _ => pure found
  | none => pure (found.1, findExactRen cols)

/-- The column-resolution loop of `get_liquidaciones_data`
(streamlit_app.py:376-381), duplicated verbatim in the source. -/
def findColsLoopLiq :
    List Label → Option Label → Option Label → Except PyErr (Option Label × Option Label)
  | [], pc, pb => .ok (pc, pb)
  | c :: rest, pc, pb => do
    let l ← labelLower c
    if procTok l then findColsLoopLiq rest (some c) pb
    else if pubTok l then findColsLoopLiq rest pc (some c)
    else findColsLoopLiq rest pc pb

/-- The exact-name fallback loop of `get_liquidaciones_data`
(streamlit_app.py:383-387). -/
def findExactLiq : List Label → Option Label
  | [] => none
  | c :: rest =>
    if c = Label.str "Nombre Publicación" ∨ c = Label.str "Nombre Publicacion" then some c
    else findExactLiq rest

/-- Full column resolution of `get_liquidaciones_data`. -/
def findColsLiq (cols : List Label) : Except PyErr (Option Label × Option Label) := do
  let found ← findColsLoopLiq cols none none
  match found.2 with
  | some _ => pure found
  | none => pure (found.1, findExactLiq cols)

/-- `(series.dt.date >= sd) & (series.dt.date <= ed)` on one cell: a date
compares inclusively at both bounds, NaT compares false, and a non-datetime
cell means the column is not datetime-typed, so `.dt` raises. -/
def dateCellCmp (sd ed : Date) : Cell → Except PyErr Bool
  | .date d => .ok (Date.leb sd d && Date.leb d ed)
  | .null => .ok false
  | .str _ => .error .attributeError

/-- Map a fallible function over a list, propagating the first error. -/
def exceptMap (f : α → Except ε β) : List α → Except ε (List β)
  | [] => .ok []
  | a :: t => do
    let b ← f a
    let bs ← exceptMap f t
    .ok (b :: bs)

/-- The whole date mask of the date-range filter. -/
def dateMaskE (cols : List Label) (rows : List (List Cell)) (fecha : Label)
    (sd ed : Date) : Except PyErr (List Bool) :=
  exceptMap (fun r => dateCellCmp sd ed (rowCell cols r fecha)) rows

/-- The optional date-range restriction of the final mask
(streamlit_app.py:350-358 and 406-414): only when both bounds are supplied
and the date column exists is the date mask conjoined; if building it
raises (`except: pass`), the content mask is kept unchanged. -/
def applyDateFilter (cols : List Label) (rows : List (List Cell)) (fecha : Label)
    (sd ed : Option Date) (base : List Bool) : List Bool :=
  match sd, ed with
  | some s, some e =>
    if fecha ∈ cols then
      match dateMaskE cols rows fecha s e with
      | .ok dm => List.zipWith (· && ·) base dm
      | .error _ => base
    else base
  | _, _ => base

/-- The part of the body of `get_renegociaciones_data`
(streamlit_app.py:319-362) that follows the `preprocess_dates` call: resolve
columns, build the three content masks, optionally conjoin the date mask
(its own inner `try` falls back to no date filter), and select the masked
rows; unresolved columns give the empty frame. -/
def renegAfterPre (dfp : DataFrame) (fecha : Label) (sd ed : Option Date) :
    Except PyErr DataFrame := do
  let found ← findColsRen dfp.cols
  match found.1, found.2 with
  | some p, some b =>
    if p ∈ dfp.cols ∧ b ∈ dfp.cols then
      let mask1 := dfp.rows.map (fun r =>
        containsAny (lowerStr (cellToStr (rowCell dfp.cols r p)))
          ["renegociación", "renegociacion"])
      let mask2 := dfp.rows.map (fun r =>
        containsAny (lowerStr (cellToStr (rowCell dfp.cols r b)))
          ["resolución de admisibilidad", "resolucion de admisibilidad"])
      let excl := dfp.rows.map (fun r =>
        !containsAny (lowerStr (cellToStr (rowCell dfp.cols r b)))
          ["antecedentes resolución de admisibilidad",
           "antecedentes resolucion de admisibilidad"])
      let base := List.zipWith (· && ·) (List.zipWith (· && ·) mask1 mask2) excl
      let fm := applyDateFilter dfp.cols dfp.rows fecha sd ed base
      pure ⟨dfp.cols, filterMask dfp.rows fm⟩
    else
      pure DataFrame.empty
  | _, _ => pure DataFrame.empty

/-- The body of `get_renegociaciones_data` (streamlit_app.py:312-364) inside
its outer `try`: preprocess dates, then the rest of the body. -/
def renegBody (df : DataFrame) (sd ed : Option Date) : Except PyErr DataFrame := do
  let pre ← preprocess_dates df
  renegAfterPre pre.1 pre.2 sd ed

/-- `get_renegociaciones_data`: the body, with the outer
`except Exception: return pd.DataFrame()`. -/
def get_renegociaciones_data (df : DataFrame) (sd ed : Option Date) : DataFrame :=
  match renegBody df sd ed with
  | .ok r => r
  | .error _ => DataFrame.empty

/-- The part of the body of `get_liquidaciones_data`
(streamlit_app.py:373-418) that follows the `preprocess_dates` call: same
shape as the renegociaciones body with the liquidaciones content masks. -/
def liqAfterPre (dfp : DataFrame) (fecha : Label) (sd ed : Option Date) :
    Except PyErr DataFrame := do
  let found ← findColsLiq dfp.cols
  match found.1, found.2 with
  | some p, some b =>
    if p ∈ dfp.cols ∧ b ∈ dfp.cols then
      let procA := dfp.rows.map (fun r =>
        containsSubstr (lowerStr (cellToStr (rowCell dfp.cols r p))) "liquid")
      let procB := dfp.rows.map (fun r =>
        containsSubstr (lowerStr (cellToStr (rowCell dfp.cols r p))) "volunt")
      let pubA := dfp.rows.map (fun r =>
        containsSubstr (lowerStr (cellToStr (rowCell dfp.cols r b))) "reso")
      let pubB := dfp.rows.map (fun r =>
        containsSubstr (lowerStr (cellToStr (rowCell dfp.cols r b))) "liquida")
      let excl := dfp.rows.map (fun r =>
        !containsAny (lowerStr (cellToStr (rowCell dfp.cols r b)))
          ["antecedentes de la resolución de liquidación",
           "antecedentes de la resolucion de liquidacion"])
      let procMask := List.zipWith (· && ·) procA procB
      let pubMask := List.zipWith (· && ·) pubA pubB
      let base := List.zipWith (· && ·) (List.zipWith (· && ·) procMask pubMask) excl
      let fm := applyDateFilter dfp.cols dfp.rows fecha sd ed base
      pure ⟨dfp.cols, filterMask dfp.rows fm⟩
    else
      pure DataFrame.empty
  | _, _ => pure DataFrame.empty

/-- The body of `get_liquidaciones_data` (streamlit_app.py:366-420) inside
its outer `try`: preprocess dates, then the rest of the body. -/
def liqBody (df : DataFrame) (sd ed : Option Date) : Except PyErr DataFrame := do
  let pre ← preprocess_dates df
  liqAfterPre pre.1 pre.2 sd ed

/-- `get_liquidaciones_data`: the body, with the outer
`except Exception: return pd.DataFrame()`. -/
def get_liquidaciones_data (df : DataFrame) (sd ed : Option Date) : DataFrame :=
  match liqBody df sd ed with
  | .ok r => r
  | .error _ => DataFrame.empty

/-! ### Predicates used to state the claims about the filter engine -/

/-- Whether a column label matches the procedure-type tokens. -/
def procMatchL : Label → Bool
  | .str s => procTok (lowerStr s)
  | .int _ => false

/-- Whether a column label matches the publication-label tokens. -/
def pubMatchL : Label → Bool
  | .str s => pubTok (lowerStr s)
  | .int _ => false

/-- Whether a column label matches the publication tokens but not the
procedure tokens: the condition under which the `elif` branch of the
resolution loop assigns it to the publication role. -/
def pubOnlyL (c : Label) : Bool := pubMatchL c && !procMatchL c

/-- Whether a column label is one of the two hardcoded exact fallback names. -/
def exactPubL (c : Label) : Bool :=
  decide (c = Label.str "Nombre Publicación") || decide (c = Label.str "Nombre Publicacion")

/-- Whether a label is a string (integer labels make `.lower()` raise). -/
def isStrLabel : Label → Bool
  | .str _ => true
  | .int _ => false

/-- The last element of the list satisfying `p`, or `acc` if none does:
the value left in a Python loop variable that assigns on a hit without
breaking. -/
def lastP (p : Label → Bool) (cols : List Label) (acc : Option Label) : Option Label :=
  cols.foldl (fun a c => if p c then some c else a) acc

/-- The Renegociación content predicate of one row, as claimed:
procedure-type contains "renegociación"/"renegociacion", publication-label
contains "resolución de admisibilidad"/"resolucion de admisibilidad", and
publication-label does not contain the "antecedentes" variant. -/
def renegRowPred (cols : List Label) (p b : Label) (r : List Cell) : Bool :=
  containsAny (lowerStr (cellToStr (rowCell cols r p)))
    ["renegociación", "renegociacion"] &&
  containsAny (lowerStr (cellToStr (rowCell cols r b)))
    ["resolución de admisibilidad", "resolucion de admisibilidad"] &&
  !containsAny (lowerStr (cellToStr (rowCell cols r b)))
    ["antecedentes resolución de admisibilidad",
     "antecedentes resolucion de admisibilidad"]

/-- The Liquidación Voluntaria content predicate of one row, as claimed. -/
def liqRowPred (cols : List Label) (p b : Label) (r : List Cell) : Bool :=
  (containsSubstr (lowerStr (cellToStr (rowCell cols r p))) "liquid" &&
   containsSubstr (lowerStr (cellToStr (rowCell cols r p))) "volunt") &&
  (containsSubstr (lowerStr (cellToStr (rowCell cols r b))) "reso" &&
   containsSubstr (lowerStr (cellToStr (rowCell cols r b))) "liquida") &&
  !containsAny (lowerStr (cellToStr (rowCell cols r b)))
    ["antecedentes de la resolución de liquidación",
     "antecedentes de la resolucion de liquidacion"]

/-- The inclusive date-range predicate of one row: the cell in the date
column must be a parsed date inside `[sd, ed]`; NaT fails. -/
def dateRowPred (cols : List Label) (fecha : Label) (sd ed : Date) (r : List Cell) : Bool :=
  match rowCell cols r fecha with
  | .date d => Date.leb sd d && Date.leb d ed
  | _ => false

/-! ## Acquisition pipeline (`src/scraper/main.py`) -/

/-- The acquisition tiers attempted by `update_data`; `sample` stands for the
synthetic-sample generator of `fallback.py`, which the pipeline never calls. -/
inductive Tier where
  | selenium
  | direct
  | sample
deriving DecidableEq, Repr

/-- The environment the pipeline runs against: the state of the cache file
and the outcome of each download tier. `none` as an outcome means the tier
raised instead of returning. -/
structure ScraperEnv where
  cacheExists : Bool
  cacheSize : Nat
  cacheParse : Option DataFrame
  seleniumOutcome : Option Bool
  seleniumResultData : Option DataFrame
  fallbackImportable : Bool
  directOutcome : Option Bool
  directResultData : Option DataFrame

/-- `has_existing_data` (main.py:173-195): the cache file exists and its
size exceeds 100 bytes. -/
def has_existing_data (env : ScraperEnv) : Bool :=
  env.cacheExists && decide (100 < env.cacheSize)

/-- `get_csv_data` (main.py:137-171): parse the cache file if it exists;
`cacheParse` is `none` when reading/parsing fails. -/
def get_csv_data (env : ScraperEnv) : Option DataFrame :=
  if env.cacheExists then env.cacheParse else none

/-- `update_data` (main.py:197-279): return the cache when no refresh is
forced and it is valid; otherwise try Selenium, then the direct-HTTP
fallback, then the pre-existing cache, then `None`. The second component
records which download tiers were attempted. -/
def update_data (env : ScraperEnv) (force_update : Bool) : Option DataFrame × List Tier :=
  if !force_update && has_existing_data env then
    (get_csv_data env, [])
  else
    match env.seleniumOutcome with
    | some true => (env.seleniumResultData, [Tier.selenium])
    | _ =>
      if !env.fallbackImportable then
        ((if has_existing_data env then get_csv_data env else none), [Tier.selenium])
      else
        match env.directOutcome with
        | some true => (env.directResultData, [Tier.selenium, Tier.direct])
        | _ =>
          ((if has_existing_data env then get_csv_data env else none),
           [Tier.selenium, Tier.direct])

/-! ## Direct-HTTP tier (`src/scraper/fallback.py`) -/

/-- An HTTP response as far as the tier inspects it. -/
structure HttpResponse where
  status : Nat
  contentType : String
  body : String

/-- The network and filesystem environment of `download_csv_direct`:
`none` for a request models a raised `requests` exception. -/
structure HttpEnv where
  dataDirWritable : Bool
  mainPage : Option HttpResponse
  getResp : String → Option HttpResponse
  postResp : Nat → Option HttpResponse

/-- The observable outcome of `download_csv_direct`: the boolean result, the
body written verbatim to the cache path (if any), and the guessed URLs that
were GET-requested, in order. -/
structure DlResult where
  success : Bool
  written : Option String
  tried : List String
deriving DecidableEq, Repr

/-- The fixed list of guessed CSV endpoints (fallback.py:110-117). -/
def potentialCsvUrls : List String :=
  ["https://www.boletinconcursal.cl/boletin/procedimientos/export/csv",
   "https://www.boletinconcursal.cl/boletin/export/csv",
   "https://www.boletinconcursal.cl/api/procedimientos/csv",
   "https://www.boletinconcursal.cl/procedimientos.csv",
   "https://www.boletinconcursal.cl/boletin/procedimientos.csv",
   "https://www.boletinconcursal.cl/export/procedimientos.csv"]

/-- First `n` characters of a string (`s[:n]`). -/
def takeChars (s : String) (n : Nat) : String := String.mk (s.data.take n)

/-- Whitespace recognised by Python `str.strip()`. -/
def isSpaceChar (c : Char) : Bool :=
  decide (c = ' ') || decide (c = '\t') || decide (c = '\n') || decide (c = '\r')

/-- Drop leading whitespace characters. -/
def dropLeading : List Char → List Char
  | [] => []
  | c :: t => if isSpaceChar c then dropLeading t else c :: t

/-- Python `str.strip()`. -/
def stripStr (s : String) : String :=
  String.mk ((dropLeading (dropLeading s.data.reverse).reverse))

/-- Content-type acceptance of the GET loop (fallback.py:133):
`'csv' in ct or 'text' in ct or 'application/octet-stream' in ct`. -/
def ctOkGet (ct : String) : Bool :=
  containsSubstr (lowerStr ct) "csv" || containsSubstr (lowerStr ct) "text" ||
    containsSubstr (lowerStr ct) "application/octet-stream"

/-- Text-shape heuristic of the GET loop (fallback.py:135-138): the first
1000 characters contain a comma and a newline and strip to more than 50
characters (`len(content.strip()) > 50`). -/
def heurGet (body : String) : Bool :=
  let content := takeChars body 1000
  content.data.contains ',' && content.data.contains '\n' &&
    decide (50 < (stripStr content).length)

/-- Acceptance of one GET response (fallback.py:129-148). -/
def acceptGet (r : HttpResponse) : Bool :=
  decide (r.status = 200) && ctOkGet r.contentType && heurGet r.body

/-- Content-type acceptance of the POST phase (fallback.py:192):
`'csv' in ct or 'application/octet-stream' in ct`. -/
def ctOkPost (ct : String) : Bool :=
  containsSubstr (lowerStr ct) "csv" ||
    containsSubstr (lowerStr ct) "application/octet-stream"

/-- Text-shape heuristic of the POST phase (fallback.py:193-194): the first
500 characters contain a comma and a newline; no length minimum. -/
def heurPost (body : String) : Bool :=
  let content := takeChars body 500
  content.data.contains ',' && content.data.contains '\n'

/-- Acceptance of one POST response (fallback.py:188-194). -/
def acceptPost (r : HttpResponse) : Bool :=
  decide (r.status = 200) && ctOkPost r.contentType && heurPost r.body

/-- The GET loop over the guessed endpoints (fallback.py:121-170): each URL
is requested once, in order; a raised request is caught and the loop
continues; the first accepted response is written verbatim and ends the
loop. -/
def tryUrls (env : HttpEnv) : List String → DlResult
  | [] => ⟨false, none, []⟩
  | u :: rest =>
    match env.getResp u with
    | none =>
      let r := tryUrls env rest
      ⟨r.success, r.written, u :: r.tried⟩
    | some resp =>
      if acceptGet resp then ⟨true, some resp.body, [u]⟩
      else
        let r := tryUrls env rest
        ⟨r.success, r.written, u :: r.tried⟩

/-- The POST phase (fallback.py:173-205): up to five payload variants; the
whole phase is wrapped in one `try`, so a raised POST aborts the remaining
variants; an accepted response is written verbatim. -/
def tryPosts (env : HttpEnv) : List Nat → Option String
  | [] => none
  | i :: rest =>
    match env.postResp i with
    | none => none
    | some resp =>
      if acceptPost resp then some resp.body else tryPosts env rest

/-- Outcome of the POST phase, merged with the GET loop's request trace. -/
def postPhase (env : HttpEnv) (r : DlResult) : DlResult :=
  match tryPosts env [0, 1, 2, 3, 4] with
  | some b => ⟨true, some b, r.tried⟩
  | none => ⟨false, none, r.tried⟩

/-- `download_csv_direct` (fallback.py:11-213): check the data directory is
writable, warm the session on the main page (`raise_for_status` on a 4xx/5xx
status fails the tier), then the GET loop over the guessed endpoints, then
the POST phase. -/
def download_csv_direct (env : HttpEnv) : DlResult :=
  if !env.dataDirWritable then ⟨false, none, []⟩
  else
    match env.mainPage with
    | none => ⟨false, none, []⟩
    | some mp =>
      if 400 ≤ mp.status then ⟨false, none, []⟩
      else
        let r := tryUrls env potentialCsvUrls
        if r.success then r else postPhase env r

/-! ## Heap-level model of the classify calls, for the no-mutation claim

The caller's dataframe lives in a heap of frames; `df.copy()` allocates a
fresh frame and the date conversion `df_copy[fecha] = ...` writes only that
fresh frame. The heap-level functions return the classify result together
with the final heap, so that non-mutation of the caller's frame is a
statement, not a modelling assumption. -/

/-- `df.copy()`: append a duplicate of frame `i` to the heap, returning the
new frame's index. -/
def copyFrame (h : List DataFrame) (i : Nat) : List DataFrame × Nat :=
  (h ++ [h.getD i DataFrame.empty], h.length)

/-- In-place column assignment on the heap frame at index `j`. -/
def writeColAt (h : List DataFrame) (j : Nat) (l : Label) (f : Cell → Cell) :
    List DataFrame :=
  h.set j (mapCol (h.getD j DataFrame.empty) l f)

/-- Heap-level `preprocess_dates`: copy the frame at `i`, then convert the
date column of the copy in place. -/
def preprocessH (h : List DataFrame) (i : Nat) :
    Except PyErr (List DataFrame × Nat × Label) := do
  let hj := copyFrame h i
  let h1 := hj.1
  let j := hj.2
  let dfc := h1.getD j DataFrame.empty
  let fopt ← findFecha dfc.cols
  let fecha := fopt.getD (Label.str "Fecha Publicación")
  if fecha ∈ dfc.cols then
    if isDatetimeDtype (getCol dfc fecha) then
      pure (h1, j, fecha)
    else
      pure (writeColAt h1 j fecha toDatetimeCoerce, j, fecha)
  else
    pure (h1, j, fecha)

/-- The part of the renegociaciones body after preprocessing: it reads the
copied frame at index `j` and builds a fresh result value, without writing
the heap. -/
def renegRestH (h1 : List DataFrame) (j : Nat) (fecha : Label) (sd ed : Option Date) :
    Except PyErr DataFrame :=
  renegAfterPre (h1.getD j DataFrame.empty) fecha sd ed

/-- Heap-level `get_renegociaciones_data`: the outer `except` hands the
caller back the empty frame; the heap the caller sees is the one left by
whatever ran before the raise (`df.copy()` always runs first, and the date
conversion is the only write). -/
def get_renegociaciones_dataH (h : List DataFrame) (i : Nat) (sd ed : Option Date) :
    DataFrame × List DataFrame :=
  match preprocessH h i with
  | .error _ => (DataFrame.empty, (copyFrame h i).1)
  | .ok pjf =>
    match renegRestH pjf.1 pjf.2.1 pjf.2.2 sd ed with
    | .ok res => (res, pjf.1)
    | .error _ => (DataFrame.empty, pjf.1)

/-- The part of the liquidaciones body after preprocessing. -/
def liqRestH (h1 : List DataFrame) (j : Nat) (fecha : Label) (sd ed : Option Date) :
    Except PyErr DataFrame :=
  liqAfterPre (h1.getD j DataFrame.empty) fecha sd ed

/-- Heap-level `get_liquidaciones_data`. -/
def get_liquidaciones_dataH (h : List DataFrame) (i : Nat) (sd ed : Option Date) :
    DataFrame × List DataFrame :=
  match preprocessH h i with
  | .error _ => (DataFrame.empty, (copyFrame h i).1)
  | .ok pjf =>
    match liqRestH pjf.1 pjf.2.1 pjf.2.2 sd ed with
    | .ok res => (res, pjf.1)
    | .error _ => (DataFrame.empty, pjf.1)

deriving instance DecidableEq for Except

/-! ## Concrete fixtures used by witnesses and counterexamples -/

/-- A one-record frame: the sample fixture record of the spec. -/
def sampleDf : DataFrame :=
  ⟨[Label.str "Procedimiento Concursal", Label.str "Nombre Publicación"],
   [[Cell.str "Renegociación - Persona Deudora", Cell.str "Resolución de admisibilidad"]]⟩

/-- A renegociación record together with an "Antecedentes" record. -/
def dfC1 : DataFrame :=
  ⟨[Label.str "Procedimiento Concursal", Label.str "Nombre Publicación"],
   [[Cell.str "Renegociación - Persona Deudora", Cell.str "Resolución de admisibilidad"],
    [Cell.str "Renegociación - Persona Deudora",
     Cell.str "Antecedentes Resolución de Admisibilidad"]]⟩

/-- A voluntary-liquidation record. -/
def sampleLiqDf : DataFrame :=
  ⟨[Label.str "Procedimiento Concursal", Label.str "Nombre Publicación"],
   [[Cell.str "Liquidación voluntaria simplificada - Persona Deudora",
     Cell.str "Resolución de Liquidación"]]⟩

/-- Three renegociación records with publication dates, one unparseable. -/
def dfDates : DataFrame :=
  ⟨[Label.str "Procedimiento Concursal", Label.str "Nombre Publicación",
    Label.str "Fecha Publicación"],
   [[Cell.str "Renegociación - Persona Deudora", Cell.str "Resolución de admisibilidad",
     Cell.str "15/01/2025"],
    [Cell.str "Renegociación - Persona Deudora", Cell.str "Resolución de admisibilidad",
     Cell.str "20/01/2025"],
    [Cell.str "Renegociación - Persona Deudora", Cell.str "Resolución de admisibilidad",
     Cell.str "sin fecha"]]⟩

/-- `dfDates` after date preprocessing: dates parsed, the bad one NaT. -/
def dfDatesPre : DataFrame :=
  ⟨[Label.str "Procedimiento Concursal", Label.str "Nombre Publicación",
    Label.str "Fecha Publicación"],
   [[Cell.str "Renegociación - Persona Deudora", Cell.str "Resolución de admisibilidad",
     Cell.date ⟨2025, 1, 15⟩],
    [Cell.str "Renegociación - Persona Deudora", Cell.str "Resolución de admisibilidad",
     Cell.date ⟨2025, 1, 20⟩],
    [Cell.str "Renegociación - Persona Deudora", Cell.str "Resolución de admisibilidad",
     Cell.null]]⟩

/-- A frame whose only column label is the integer 0. -/
def dfInt : DataFrame := ⟨[Label.int 0], [[Cell.str "x"]]⟩

/-- A pipeline environment with a valid cache and failing download tiers. -/
def envC3 : ScraperEnv :=
  ⟨true, 150, some sampleDf, some false, none, true, some false, none⟩

/-- A pipeline environment with a valid cache, a failing Selenium tier and a
raising direct tier. -/
def envC4 : ScraperEnv :=
  ⟨true, 150, some sampleDf, some false, none, true, none, none⟩

/-- A CSV body long enough to pass the GET heuristic. -/
def csvBody : String :=
  "Rol,Procedimiento Concursal,Deudor\nC-123-2025,Renegociacion - Persona Deudora,JUAN PEREZ\n"

/-- An HTTP environment where the first guessed endpoint serves the CSV. -/
def envGetAccept : HttpEnv :=
  ⟨true, some ⟨200, "text/html", "pagina"⟩,
   fun _ => some ⟨200, "text/csv", csvBody⟩,
   fun _ => none⟩

/-- A frame none of whose column names matches any resolution token. -/
def dfNoCols : DataFrame :=
  ⟨[Label.str "Foo", Label.str "Bar"], [[Cell.str "x", Cell.str "y"]]⟩

/-- An HTTP environment where every guessed GET is a 404 and the first POST
variant answers with a two-line CSV far below the GET length threshold. -/
def envPostAccept : HttpEnv :=
  ⟨true, some ⟨200, "text/html", "pagina"⟩,
   fun _ => some ⟨404, "text/html", ""⟩,
   fun i => if i = 0 then some ⟨200, "text/csv", "a,b\nc,d"⟩ else none⟩

/-! ## Lemmas about the mask combinators -/

theorem zipWith_and_map {α : Type} (f g : α → Bool) (l : List α) :
    List.zipWith (· && ·) (l.map f) (l.map g) = l.map (fun x => f x && g x) := by
  induction l with
  | nil => rfl
  | cons a t ih => simp [ih]

theorem filterMask_map (f : List Cell → Bool) (rows : List (List Cell)) :
    filterMask rows (rows.map f) = rows.filter f := by
  induction rows with
  | nil => rfl
  | cons r t ih =>
    simp only [filterMask, List.map_cons, List.zip_cons_cons, List.filter_cons] at ih ⊢
    cases hf : f r
    · simpa [hf] using ih
    · simpa [hf] using ih

theorem isDatetimeCell_coerce (c : Cell) : isDatetimeCell (toDatetimeCoerce c) = true := by
  cases c with
  | str s =>
    simp only [toDatetimeCoerce]
    cases hp : parseDate s <;> rfl
  | date d => rfl
  | null => rfl

theorem dateMaskE_ok (cols : List Label) (fecha : Label) (sd ed : Date)
    (rows : List (List Cell))
    (h : ∀ r ∈ rows, isDatetimeCell (rowCell cols r fecha) = true) :
    dateMaskE cols rows fecha sd ed = .ok (rows.map (dateRowPred cols fecha sd ed)) := by
  induction rows with
  | nil => rfl
  | cons r t ih =>
    have ht := ih (fun x hx => h x (List.mem_cons_of_mem _ hx))
    have hr : dateCellCmp sd ed (rowCell cols r fecha) =
        .ok (dateRowPred cols fecha sd ed r) := by
      have hc := h r (by simp)
      cases hcell : rowCell cols r fecha with
      | date d => simp [dateCellCmp, dateRowPred, hcell]
      | null => simp [dateCellCmp, dateRowPred, hcell]
      | str s => rw [hcell] at hc; exact absurd hc (by simp [isDatetimeCell])
    simp only [dateMaskE, exceptMap] at ht ⊢
    rw [hr, ht]
    rfl

theorem applyDateFilter_none (cols : List Label) (rows : List (List Cell))
    (fecha : Label) (sd ed : Option Date) (base : List Bool)
    (hno : sd = none ∨ ed = none) :
    applyDateFilter cols rows fecha sd ed base = base := by
  rcases hno with h | h <;> subst h
  · rfl
  · cases sd <;> rfl

theorem applyDateFilter_some (cols : List Label) (rows : List (List Cell))
    (fecha : Label) (s e : Date) (base : List Bool)
    (hf : fecha ∈ cols)
    (hdt : ∀ r ∈ rows, isDatetimeCell (rowCell cols r fecha) = true) :
    applyDateFilter cols rows fecha (some s) (some e) base =
      List.zipWith (· && ·) base (rows.map (dateRowPred cols fecha s e)) := by
  show (if fecha ∈ cols then
      (match dateMaskE cols rows fecha s e with
        | Except.ok dm => List.zipWith (· && ·) base dm
        | Except.error _ => base)
    else base) = _
  rw [if_pos hf, dateMaskE_ok cols fecha s e rows hdt]

/-! ## Characterisation of the filter bodies -/

theorem renegAfterPre_noDate (dfp : DataFrame) (fecha : Label) (p b : Label)
    (sd ed : Option Date)
    (hres : findColsRen dfp.cols = .ok (some p, some b))
    (hp : p ∈ dfp.cols) (hb : b ∈ dfp.cols)
    (hno : sd = none ∨ ed = none) :
    renegAfterPre dfp fecha sd ed =
      .ok ⟨dfp.cols, dfp.rows.filter (renegRowPred dfp.cols p b)⟩ := by
  unfold renegAfterPre
  rw [hres]
  show (if p ∈ dfp.cols ∧ b ∈ dfp.cols then _ else _) = _
  rw [if_pos ⟨hp, hb⟩, applyDateFilter_none _ _ _ _ _ _ hno]
  simp only [zipWith_and_map, filterMask_map]
  rfl

theorem renegAfterPre_date (dfp : DataFrame) (fecha : Label) (p b : Label)
    (s e : Date)
    (hres : findColsRen dfp.cols = .ok (some p, some b))
    (hp : p ∈ dfp.cols) (hb : b ∈ dfp.cols) (hf : fecha ∈ dfp.cols)
    (hdt : ∀ r ∈ dfp.rows, isDatetimeCell (rowCell dfp.cols r fecha) = true) :
    renegAfterPre dfp fecha (some s) (some e) =
      .ok ⟨dfp.cols, dfp.rows.filter (fun r =>
        renegRowPred dfp.cols p b r && dateRowPred dfp.cols fecha s e r)⟩ := by
  unfold renegAfterPre
  rw [hres]
  show (if p ∈ dfp.cols ∧ b ∈ dfp.cols then _ else _) = _
  rw [if_pos ⟨hp, hb⟩, applyDateFilter_some _ _ _ _ _ _ hf hdt]
  simp only [zipWith_and_map, filterMask_map]
  rfl

theorem liqAfterPre_noDate (dfp : DataFrame) (fecha : Label) (p b : Label)
    (sd ed : Option Date)
    (hres : findColsLiq dfp.cols = .ok (some p, some b))
    (hp : p ∈ dfp.cols) (hb : b ∈ dfp.cols)
    (hno : sd = none ∨ ed = none) :
    liqAfterPre dfp fecha sd ed =
      .ok ⟨dfp.cols, dfp.rows.filter (liqRowPred dfp.cols p b)⟩ := by
  unfold liqAfterPre
  rw [hres]
  show (if p ∈ dfp.cols ∧ b ∈ dfp.cols then _ else _) = _
  rw [if_pos ⟨hp, hb⟩, applyDateFilter_none _ _ _ _ _ _ hno]
  simp only [zipWith_and_map, filterMask_map]
  rfl

theorem liqAfterPre_date (dfp : DataFrame) (fecha : Label) (p b : Label)
    (s e : Date)
    (hres : findColsLiq dfp.cols = .ok (some p, some b))
    (hp : p ∈ dfp.cols) (hb : b ∈ dfp.cols) (hf : fecha ∈ dfp.cols)
    (hdt : ∀ r ∈ dfp.rows, isDatetimeCell (rowCell dfp.cols r fecha) = true) :
    liqAfterPre dfp fecha (some s) (some e) =
      .ok ⟨dfp.cols, dfp.rows.filter (fun r =>
        liqRowPred dfp.cols p b r && dateRowPred dfp.cols fecha s e r)⟩ := by
  unfold liqAfterPre
  rw [hres]
  show (if p ∈ dfp.cols ∧ b ∈ dfp.cols then _ else _) = _
  rw [if_pos ⟨hp, hb⟩, applyDateFilter_some _ _ _ _ _ _ hf hdt]
  simp only [zipWith_and_map, filterMask_map]
  rfl

/-! ## Lemmas about `preprocess_dates` -/

theorem getD_set_self {α : Type} (l : List α) (i : Nat) (v d : α) :
    (l.set i v).getD i d = if i < l.length then v else d := by
  induction l generalizing i with
  | nil => simp
  | cons a t ih =>
    cases i with
    | zero => simp
    | succ j => simpa using ih j

theorem findIdx?_isSome_of_mem {l : List Label} {a : Label} (h : a ∈ l) :
    ∃ i, l.findIdx? (fun c => decide (c = a)) = some i := by
  cases hi : l.findIdx? (fun c => decide (c = a)) with
  | some i => exact ⟨i, rfl⟩
  | none =>
    rw [List.findIdx?_eq_none_iff] at hi
    have := hi a h
    simp at this

theorem mapCol_cols (df : DataFrame) (l : Label) (f : Cell → Cell) :
    (mapCol df l f).cols = df.cols := by
  unfold mapCol
  split <;> rfl

/-- The frame produced by a successful `preprocess_dates`, as a function of
the resolved date column. -/
def preprocessPure (df : DataFrame) (fecha : Label) : DataFrame :=
  if fecha ∈ df.cols then
    if isDatetimeDtype (getCol df fecha) then df
    else mapCol df fecha toDatetimeCoerce
  else df

theorem preprocess_dates_err (df : DataFrame) (e : PyErr)
    (hf : findFecha df.cols = .error e) :
    preprocess_dates df = .error e := by
  simp only [preprocess_dates, hf]
  rfl

theorem preprocess_dates_ok (df : DataFrame) (fopt : Option Label)
    (hf : findFecha df.cols = .ok fopt) :
    preprocess_dates df =
      .ok (preprocessPure df (fopt.getD (Label.str "Fecha Publicación")),
           fopt.getD (Label.str "Fecha Publicación")) := by
  simp only [preprocess_dates, hf]
  show (if (fopt.getD (Label.str "Fecha Publicación")) ∈ df.cols then
      (if isDatetimeDtype (getCol df (fopt.getD (Label.str "Fecha Publicación"))) then
        pure (df, fopt.getD (Label.str "Fecha Publicación"))
      else
        pure (mapCol df (fopt.getD (Label.str "Fecha Publicación")) toDatetimeCoerce,
              fopt.getD (Label.str "Fecha Publicación")))
    else pure (df, fopt.getD (Label.str "Fecha Publicación"))) = _
  unfold preprocessPure
  split
  · split <;> rfl
  · rfl

theorem preprocess_dates_shape (df dfp : DataFrame) (fc : Label)
    (h : preprocess_dates df = .ok (dfp, fc)) : dfp = preprocessPure df fc := by
  cases hf : findFecha df.cols with
  | error e => rw [preprocess_dates_err df e hf] at h; exact absurd h (by simp)
  | ok fopt =>
    rw [preprocess_dates_ok df fopt hf] at h
    obtain ⟨h1, h2⟩ := Prod.mk.injEq .. ▸ Except.ok.inj h
    subst h2
    exact h1.symm

theorem preprocessPure_cols (df : DataFrame) (fc : Label) :
    (preprocessPure df fc).cols = df.cols := by
  unfold preprocessPure
  split
  · split
    · rfl
    · exact mapCol_cols df fc toDatetimeCoerce
  · rfl

theorem preprocessPure_datetime (df : DataFrame) (fc : Label)
    (hmem : fc ∈ (preprocessPure df fc).cols) :
    ∀ r ∈ (preprocessPure df fc).rows,
      isDatetimeCell (rowCell (preprocessPure df fc).cols r fc) = true := by
  rw [preprocessPure_cols] at hmem
  intro r hr
  unfold preprocessPure at hr ⊢
  rw [if_pos hmem] at hr ⊢
  by_cases hdt : isDatetimeDtype (getCol df fc)
  · rw [if_pos hdt] at hr ⊢
    have : rowCell df.cols r fc ∈ getCol df fc := List.mem_map.mpr ⟨r, hr, rfl⟩
    exact List.all_eq_true.mp hdt _ this
  · rw [if_neg hdt] at hr ⊢
    obtain ⟨i, hi⟩ := findIdx?_isSome_of_mem hmem
    unfold mapCol at hr ⊢
    rw [hi] at hr ⊢
    simp only [List.mem_map] at hr
    obtain ⟨r0, _, hr0⟩ := hr
    unfold rowCell
    rw [hi, ← hr0]
    show isDatetimeCell
      ((r0.set i (toDatetimeCoerce (r0.getD i Cell.null))).getD i Cell.null) = true
    rw [getD_set_self]
    split
    · exact isDatetimeCell_coerce _
    · rfl

/-! ## Lemmas about column resolution -/

theorem lastP_cons (p : Label → Bool) (c : Label) (t : List Label) (acc : Option Label) :
    lastP p (c :: t) acc = lastP p t (if p c then some c else acc) := by
  simp [lastP, List.foldl_cons]

theorem lastP_all_false (p : Label → Bool) (cols : List Label) (acc : Option Label)
    (h : ∀ c ∈ cols, p c = false) : lastP p cols acc = acc := by
  induction cols generalizing acc with
  | nil => rfl
  | cons c t ih =>
    rw [lastP_cons, if_neg (by simp [h c (by simp)])]
    exact ih acc (fun x hx => h x (List.mem_cons_of_mem _ hx))

theorem lastP_some (p : Label → Bool) (cols : List Label) (acc : Option Label) (c : Label)
    (h : lastP p cols acc = some c) : (c ∈ cols ∧ p c = true) ∨ acc = some c := by
  induction cols generalizing acc with
  | nil => exact Or.inr h
  | cons a t ih =>
    rw [lastP_cons] at h
    rcases ih _ h with ⟨hm, hp⟩ | hacc
    · exact Or.inl ⟨List.mem_cons_of_mem _ hm, hp⟩
    · by_cases ha : p a
      · rw [if_pos ha] at hacc
        obtain rfl := Option.some.inj hacc
        exact Or.inl ⟨List.mem_cons_self .., ha⟩
      · rw [if_neg ha] at hacc
        exact Or.inr hacc

theorem findColsLoopRen_allStr (cols : List Label) (pc pb : Option Label)
    (h : ∀ c ∈ cols, isStrLabel c = true) :
    findColsLoopRen cols pc pb = .ok (lastP procMatchL cols pc, lastP pubOnlyL cols pb) := by
  induction cols generalizing pc pb with
  | nil => rfl
  | cons c t ih =>
    cases c with
    | int n => exact absurd (h (Label.int n) (by simp)) (by simp [isStrLabel])
    | str s =>
      have ht := fun x hx => h x (List.mem_cons_of_mem _ hx)
      show (if procTok (lowerStr s) then findColsLoopRen t (some (Label.str s)) pb
        else if pubTok (lowerStr s) then findColsLoopRen t pc (some (Label.str s))
        else findColsLoopRen t pc pb) = _
      rw [lastP_cons, lastP_cons]
      by_cases h1 : procTok (lowerStr s)
      · rw [if_pos h1, ih _ _ ht,
          if_pos (show procMatchL (Label.str s) = true from h1),
          if_neg (show ¬pubOnlyL (Label.str s) = true by simp [pubOnlyL, procMatchL, h1])]
      · rw [if_neg h1]
        by_cases h2 : pubTok (lowerStr s)
        · rw [if_pos h2, ih _ _ ht,
            if_neg (show ¬procMatchL (Label.str s) = true from h1),
            if_pos (show pubOnlyL (Label.str s) = true by
              simp [pubOnlyL, procMatchL, pubMatchL, h1, h2])]
        · rw [if_neg h2, ih _ _ ht,
            if_neg (show ¬procMatchL (Label.str s) = true from h1),
            if_neg (show ¬pubOnlyL (Label.str s) = true by
              simp [pubOnlyL, procMatchL, pubMatchL, h1, h2])]

theorem findColsLoopRen_err (cols : List Label) (pc pb : Option Label)
    (h : ∃ c ∈ cols, isStrLabel c = false) :
    findColsLoopRen cols pc pb = .error PyErr.attributeError := by
  induction cols generalizing pc pb with
  | nil =>
    obtain ⟨c, hc, _⟩ := h
    exact absurd hc (List.not_mem_nil c)
  | cons c t ih =>
    cases c with
    | int n => rfl
    | str s =>
      obtain ⟨c', hc', hstr⟩ := h
      rcases List.mem_cons.mp hc' with rfl | hmem
      · exact absurd hstr (by simp [isStrLabel])
      · show (if procTok (lowerStr s) then findColsLoopRen t (some (Label.str s)) pb
          else if pubTok (lowerStr s) then findColsLoopRen t pc (some (Label.str s))
          else findColsLoopRen t pc pb) = _
        by_cases h1 : procTok (lowerStr s)
        · rw [if_pos h1]; exact ih _ _ ⟨c', hmem, hstr⟩
        · rw [if_neg h1]
          by_cases h2 : pubTok (lowerStr s)
          · rw [if_pos h2]; exact ih _ _ ⟨c', hmem, hstr⟩
          · rw [if_neg h2]; exact ih _ _ ⟨c', hmem, hstr⟩

theorem findColsRen_allStr (cols : List Label)
    (h : ∀ c ∈ cols, isStrLabel c = true) :
    findColsRen cols = .ok (lastP procMatchL cols none,
      match lastP pubOnlyL cols none with
      | some c => some c
      | none => findExactRen cols) := by
  unfold findColsRen
  rw [findColsLoopRen_allStr cols none none h]
  cases hpb : lastP pubOnlyL cols none <;> rfl

theorem findColsRen_err (cols : List Label)
    (h : ∃ c ∈ cols, isStrLabel c = false) :
    findColsRen cols = .error PyErr.attributeError := by
  unfold findColsRen
  rw [findColsLoopRen_err cols none none h]
  rfl

theorem findColsLoopLiq_eq (cols : List Label) (pc pb : Option Label) :
    findColsLoopLiq cols pc pb = findColsLoopRen cols pc pb := by
  induction cols generalizing pc pb with
  | nil => rfl
  | cons c t ih =>
    cases c with
    | int n => rfl
    | str s =>
      show (if procTok (lowerStr s) then findColsLoopLiq t (some (Label.str s)) pb
        else if pubTok (lowerStr s) then findColsLoopLiq t pc (some (Label.str s))
        else findColsLoopLiq t pc pb) =
        (if procTok (lowerStr s) then findColsLoopRen t (some (Label.str s)) pb
        else if pubTok (lowerStr s) then findColsLoopRen t pc (some (Label.str s))
        else findColsLoopRen t pc pb)
      rw [ih, ih, ih]

theorem findExactLiq_eq (cols : List Label) : findExactLiq cols = findExactRen cols := by
  induction cols with
  | nil => rfl
  | cons c t ih => simp only [findExactLiq, findExactRen, ih]

theorem findColsLiq_eq (cols : List Label) : findColsLiq cols = findColsRen cols := by
  unfold findColsLiq findColsRen
  rw [findColsLoopLiq_eq]
  cases findColsLoopRen cols none none with
  | error e => rfl
  | ok found =>
    obtain ⟨f1, f2⟩ := found
    cases f2 with
    | some c => rfl
    | none =>
      show Except.ok (f1, findExactLiq cols) = Except.ok (f1, findExactRen cols)
      rw [findExactLiq_eq]

theorem findExactRen_mem (cols : List Label) (c : Label)
    (h : findExactRen cols = some c) : c ∈ cols ∧ exactPubL c = true := by
  induction cols with
  | nil => exact absurd h (by simp [findExactRen])
  | cons a t ih =>
    unfold findExactRen at h
    split at h
    · obtain rfl := Option.some.inj h
      refine ⟨List.mem_cons_self .., ?_⟩
      simp only [exactPubL]
      rename_i hcond
      rcases hcond with h1 | h1 <;> simp [h1]
    · obtain ⟨hm, he⟩ := ih h
      exact ⟨List.mem_cons_of_mem _ hm, he⟩

theorem findExactRen_none (cols : List Label)
    (h : ∀ c ∈ cols, exactPubL c = false) : findExactRen cols = none := by
  induction cols with
  | nil => rfl
  | cons a t ih =>
    unfold findExactRen
    rw [if_neg]
    · exact ih (fun x hx => h x (List.mem_cons_of_mem _ hx))
    · have := h a (by simp)
      simp only [exactPubL, Bool.or_eq_false_iff, decide_eq_false_iff_not] at this
      rintro (h1 | h1)
      · exact this.1 h1
      · exact this.2 h1

theorem findColsRen_mem (cols : List Label) (p b : Label)
    (h : findColsRen cols = .ok (some p, some b))
    (hstr : ∀ c ∈ cols, isStrLabel c = true) : p ∈ cols ∧ b ∈ cols := by
  rw [findColsRen_allStr cols hstr] at h
  obtain ⟨h1, h2⟩ := Prod.mk.injEq .. ▸ Except.ok.inj h
  constructor
  · rcases lastP_some _ _ _ _ h1 with ⟨hm, _⟩ | habs
    · exact hm
    · exact absurd habs (by simp)
  · cases hpb : lastP pubOnlyL cols none with
    | some c =>
      rw [hpb] at h2
      obtain rfl := Option.some.inj h2
      rcases lastP_some _ _ _ _ hpb with ⟨hm, _⟩ | habs
      · exact hm
      · exact absurd habs (by simp)
    | none =>
      rw [hpb] at h2
      exact (findExactRen_mem cols b h2).1

/-! ## Glue lemmas connecting bodies to the public functions -/

theorem renegBody_of_pre (df dfp : DataFrame) (fc : Label) (sd ed : Option Date)
    (hpre : preprocess_dates df = .ok (dfp, fc)) :
    renegBody df sd ed = renegAfterPre dfp fc sd ed := by
  simp only [renegBody, hpre]
  rfl

theorem renegBody_err_pre (df : DataFrame) (e : PyErr) (sd ed : Option Date)
    (hpre : preprocess_dates df = .error e) :
    renegBody df sd ed = .error e := by
  simp only [renegBody, hpre]
  rfl

theorem liqBody_of_pre (df dfp : DataFrame) (fc : Label) (sd ed : Option Date)
    (hpre : preprocess_dates df = .ok (dfp, fc)) :
    liqBody df sd ed = liqAfterPre dfp fc sd ed := by
  simp only [liqBody, hpre]
  rfl

theorem liqBody_err_pre (df : DataFrame) (e : PyErr) (sd ed : Option Date)
    (hpre : preprocess_dates df = .error e) :
    liqBody df sd ed = .error e := by
  simp only [liqBody, hpre]
  rfl

theorem get_reneg_of_body_ok (df r : DataFrame) (sd ed : Option Date)
    (h : renegBody df sd ed = .ok r) : get_renegociaciones_data df sd ed = r := by
  simp [get_renegociaciones_data, h]

theorem get_reneg_of_body_err (df : DataFrame) (e : PyErr) (sd ed : Option Date)
    (h : renegBody df sd ed = .error e) :
    get_renegociaciones_data df sd ed = DataFrame.empty := by
  simp [get_renegociaciones_data, h]

theorem get_liq_of_body_ok (df r : DataFrame) (sd ed : Option Date)
    (h : liqBody df sd ed = .ok r) : get_liquidaciones_data df sd ed = r := by
  simp [get_liquidaciones_data, h]

theorem get_liq_of_body_err (df : DataFrame) (e : PyErr) (sd ed : Option Date)
    (h : liqBody df sd ed = .error e) :
    get_liquidaciones_data df sd ed = DataFrame.empty := by
  simp [get_liquidaciones_data, h]

theorem renegAfterPre_err (dfp : DataFrame) (fc : Label) (sd ed : Option Date) (e : PyErr)
    (h : findColsRen dfp.cols = .error e) : renegAfterPre dfp fc sd ed = .error e := by
  unfold renegAfterPre
  rw [h]
  rfl

theorem liqAfterPre_err (dfp : DataFrame) (fc : Label) (sd ed : Option Date) (e : PyErr)
    (h : findColsLiq dfp.cols = .error e) : liqAfterPre dfp fc sd ed = .error e := by
  unfold liqAfterPre
  rw [h]
  rfl

theorem renegAfterPre_unres (dfp : DataFrame) (fc : Label) (sd ed : Option Date)
    (fnd : Option Label × Option Label)
    (h : findColsRen dfp.cols = .ok fnd) (hn : fnd.1 = none ∨ fnd.2 = none) :
    renegAfterPre dfp fc sd ed = .ok DataFrame.empty := by
  obtain ⟨f1, f2⟩ := fnd
  unfold renegAfterPre
  rw [h]
  rcases hn with h1 | h1
  · obtain rfl : f1 = none := h1
    cases f2 <;> rfl
  · obtain rfl : f2 = none := h1
    cases f1 <;> rfl

theorem liqAfterPre_unres (dfp : DataFrame) (fc : Label) (sd ed : Option Date)
    (fnd : Option Label × Option Label)
    (h : findColsLiq dfp.cols = .ok fnd) (hn : fnd.1 = none ∨ fnd.2 = none) :
    liqAfterPre dfp fc sd ed = .ok DataFrame.empty := by
  obtain ⟨f1, f2⟩ := fnd
  unfold liqAfterPre
  rw [h]
  rcases hn with h1 | h1
  · obtain rfl : f1 = none := h1
    cases f2 <;> rfl
  · obtain rfl : f2 = none := h1
    cases f1 <;> rfl

theorem findFecha_allStr_ok (cols : List Label) (h : ∀ c ∈ cols, isStrLabel c = true) :
    ∃ fopt, findFecha cols = .ok fopt := by
  induction cols with
  | nil => exact ⟨none, rfl⟩
  | cons c t ih =>
    cases c with
    | int n => exact absurd (h (Label.int n) (by simp)) (by simp [isStrLabel])
    | str s =>
      show ∃ fopt, (if fechaTok (lowerStr s) then pure (some (Label.str s))
        else findFecha t) = .ok fopt
      by_cases hf : fechaTok (lowerStr s)
      · exact ⟨some (Label.str s), by rw [if_pos hf]; rfl⟩
      · obtain ⟨fopt, hfo⟩ := ih (fun x hx => h x (List.mem_cons_of_mem _ hx))
        exact ⟨fopt, by rw [if_neg hf]; exact hfo⟩

theorem findColsRen_allStr_of_ok (cols : List Label) (res : Option Label × Option Label)
    (h : findColsRen cols = .ok res) : ∀ c ∈ cols, isStrLabel c = true := by
  by_contra hc
  push_neg at hc
  obtain ⟨c, hm, hs⟩ := hc
  have hb : isStrLabel c = false := by
    cases hv : isStrLabel c
    · rfl
    · exact absurd hv hs
  rw [findColsRen_err cols ⟨c, hm, hb⟩] at h
  exact absurd h (by simp)

theorem preprocess_allStr_ok (df : DataFrame) (h : ∀ c ∈ df.cols, isStrLabel c = true) :
    ∃ fc, preprocess_dates df = .ok (preprocessPure df fc, fc) := by
  obtain ⟨fopt, hfo⟩ := findFecha_allStr_ok df.cols h
  exact ⟨fopt.getD (Label.str "Fecha Publicación"), preprocess_dates_ok df fopt hfo⟩

/-! ## Claim theorems -/

/-- Claim C1: with the procedure-type and publication-label columns resolved,
`get_renegociaciones_data` (no date bounds) returns exactly the rows whose
procedure-type value contains "renegociación"/"renegociacion", whose
publication-label value contains "resolución de admisibilidad" (either
accentuation) and does not contain "antecedentes resolución de admisibilidad"
(either accentuation): a row is in the result iff that predicate holds. -/
theorem C1_reneg_filter (df dfp : DataFrame) (fc p b : Label)
    (hpre : preprocess_dates df = .ok (dfp, fc))
    (hres : findColsRen dfp.cols = .ok (some p, some b)) :
    (get_renegociaciones_data df none none).rows =
      dfp.rows.filter (renegRowPred dfp.cols p b) ∧
    ∀ r ∈ dfp.rows,
      (r ∈ (get_renegociaciones_data df none none).rows ↔
        renegRowPred dfp.cols p b r = true) := by
  have hstr := findColsRen_allStr_of_ok _ _ hres
  obtain ⟨hp, hb⟩ := findColsRen_mem _ _ _ hres hstr
  have hget : get_renegociaciones_data df none none =
      ⟨dfp.cols, dfp.rows.filter (renegRowPred dfp.cols p b)⟩ :=
    get_reneg_of_body_ok _ _ _ _
      (by rw [renegBody_of_pre df dfp fc none none hpre,
        renegAfterPre_noDate dfp fc p b none none hres hp hb (Or.inl rfl)])
  refine ⟨by rw [hget], fun r hr => ?_⟩
  rw [hget]
  simp [List.mem_filter, hr]

/-- Witness for C1 at a concrete two-row frame: the filter keeps the
admissibility record and drops the "Antecedentes Resolución de Admisibilidad"
record even though its label contains the inclusion substring. -/
theorem C1_reneg_filter_witness :
    (get_renegociaciones_data dfC1 none none).rows =
      dfC1.rows.filter (renegRowPred dfC1.cols (Label.str "Procedimiento Concursal")
        (Label.str "Nombre Publicación")) ∧
    (get_renegociaciones_data dfC1 none none).rows =
      [[Cell.str "Renegociación - Persona Deudora",
        Cell.str "Resolución de admisibilidad"]] ∧
    containsAny (lowerStr "Antecedentes Resolución de Admisibilidad")
      ["resolución de admisibilidad", "resolucion de admisibilidad"] = true :=
  ⟨(C1_reneg_filter dfC1 dfC1 (Label.str "Fecha Publicación")
      (Label.str "Procedimiento Concursal") (Label.str "Nombre Publicación")
      (by decide) (by decide)).1,
   by decide, by decide⟩

/-- Claim C2: with the columns resolved, `get_liquidaciones_data` (no date
bounds) returns exactly the rows whose procedure-type contains both "liquid"
and "volunt", whose publication-label contains both "reso" and "liquida" and
does not contain "antecedentes de la resolución de liquidación" (either
accentuation); and the sample record (procedure "Renegociación - Persona
Deudora", label "Resolución de admisibilidad") is kept by Renegociación and
dropped by Liquidación. -/
theorem C2_liq_filter :
    (∀ df dfp : DataFrame, ∀ fc p b : Label,
      preprocess_dates df = .ok (dfp, fc) →
      findColsLiq dfp.cols = .ok (some p, some b) →
      (get_liquidaciones_data df none none).rows =
        dfp.rows.filter (liqRowPred dfp.cols p b) ∧
      ∀ r ∈ dfp.rows,
        (r ∈ (get_liquidaciones_data df none none).rows ↔
          liqRowPred dfp.cols p b r = true)) ∧
    (get_renegociaciones_data sampleDf none none).rows = sampleDf.rows ∧
    (get_liquidaciones_data sampleDf none none).rows = [] := by
  refine ⟨?_, by decide, by decide⟩
  intro df dfp fc p b hpre hres
  rw [findColsLiq_eq] at hres
  have hstr := findColsRen_allStr_of_ok _ _ hres
  obtain ⟨hp, hb⟩ := findColsRen_mem _ _ _ hres hstr
  have hres2 : findColsLiq dfp.cols = .ok (some p, some b) := by
    rw [findColsLiq_eq]; exact hres
  have hget : get_liquidaciones_data df none none =
      ⟨dfp.cols, dfp.rows.filter (liqRowPred dfp.cols p b)⟩ :=
    get_liq_of_body_ok _ _ _ _
      (by rw [liqBody_of_pre df dfp fc none none hpre,
        liqAfterPre_noDate dfp fc p b none none hres2 hp hb (Or.inl rfl)])
  refine ⟨by rw [hget], fun r hr => ?_⟩
  rw [hget]
  simp [List.mem_filter, hr]

/-- Witness for C2 at a concrete voluntary-liquidation record, which the
Liquidación filter keeps in full. -/
theorem C2_liq_filter_witness :
    (get_liquidaciones_data sampleLiqDf none none).rows =
      sampleLiqDf.rows.filter (liqRowPred sampleLiqDf.cols
        (Label.str "Procedimiento Concursal") (Label.str "Nombre Publicación")) ∧
    (get_liquidaciones_data sampleLiqDf none none).rows = sampleLiqDf.rows :=
  ⟨(C2_liq_filter.1 sampleLiqDf sampleLiqDf (Label.str "Fecha Publicación")
      (Label.str "Procedimiento Concursal") (Label.str "Nombre Publicación")
      (by decide) (by decide)).1, by decide⟩

/-- Claim C7: the classify operations are total functions (no exception
reaches the caller), and whenever the wrapped body raises, the call returns
the empty frame instead of propagating. -/
theorem C7_no_exception :
    (∀ df : DataFrame, ∀ sd ed : Option Date, ∀ e : PyErr,
      renegBody df sd ed = .error e →
      get_renegociaciones_data df sd ed = DataFrame.empty) ∧
    (∀ df : DataFrame, ∀ sd ed : Option Date, ∀ e : PyErr,
      liqBody df sd ed = .error e →
      get_liquidaciones_data df sd ed = DataFrame.empty) :=
  ⟨fun df sd ed e h => get_reneg_of_body_err df e sd ed h,
   fun df sd ed e h => get_liq_of_body_err df e sd ed h⟩

/-- Witness for C7 at a frame with an integer column label, on which the
body raises `AttributeError` from `col.lower()` and both calls return the
empty frame. -/
theorem C7_no_exception_witness :
    renegBody dfInt none none = .error PyErr.attributeError ∧
    get_renegociaciones_data dfInt none none = DataFrame.empty ∧
    liqBody dfInt none none = .error PyErr.attributeError ∧
    get_liquidaciones_data dfInt none none = DataFrame.empty :=
  ⟨by decide, C7_no_exception.1 dfInt none none PyErr.attributeError (by decide),
   by decide, C7_no_exception.2 dfInt none none PyErr.attributeError (by decide)⟩

theorem Date.leb_refl (d : Date) : Date.leb d d = true := by
  simp [Date.leb]

/-- Claim C5: if no column name matches the procedure-type tokens, or no
column name matches the publication-label tokens (fuzzy or exact fallback
names), both filters return an empty frame with zero rows and never raise. -/
theorem C5_unresolved_empty (df : DataFrame) (sd ed : Option Date)
    (h : (∀ c ∈ df.cols, procMatchL c = false) ∨
         (∀ c ∈ df.cols, pubMatchL c = false ∧ exactPubL c = false)) :
    get_renegociaciones_data df sd ed = DataFrame.empty ∧
    get_liquidaciones_data df sd ed = DataFrame.empty ∧
    (get_renegociaciones_data df sd ed).rows.length = 0 ∧
    (get_liquidaciones_data df sd ed).rows.length = 0 := by
  suffices hs : get_renegociaciones_data df sd ed = DataFrame.empty ∧
      get_liquidaciones_data df sd ed = DataFrame.empty by
    exact ⟨hs.1, hs.2, by rw [hs.1]; rfl, by rw [hs.2]; rfl⟩
  by_cases hstr : ∀ c ∈ df.cols, isStrLabel c = true
  · obtain ⟨fc, hpre⟩ := preprocess_allStr_ok df hstr
    have hcols : (preprocessPure df fc).cols = df.cols := preprocessPure_cols df fc
    have hstrp : ∀ c ∈ (preprocessPure df fc).cols, isStrLabel c = true := by
      rw [hcols]; exact hstr
    have hfnd := findColsRen_allStr _ hstrp
    have hnone : lastP procMatchL (preprocessPure df fc).cols none = none ∨
        (match lastP pubOnlyL (preprocessPure df fc).cols none with
          | some c => some c
          | none => findExactRen (preprocessPure df fc).cols) = none := by
      rcases h with h1 | h1
      · exact Or.inl (lastP_all_false _ _ _ (by rw [hcols]; exact h1))
      · refine Or.inr ?_
        have hpo : lastP pubOnlyL (preprocessPure df fc).cols none = none := by
          refine lastP_all_false _ _ _ ?_
          rw [hcols]
          intro c hc
          simp [pubOnlyL, (h1 c hc).1]
        rw [hpo]
        exact findExactRen_none _ (by rw [hcols]; exact fun c hc => (h1 c hc).2)
    constructor
    · refine get_reneg_of_body_ok _ _ _ _ ?_
      rw [renegBody_of_pre df _ fc sd ed hpre]
      exact renegAfterPre_unres _ fc sd ed _ hfnd hnone
    · refine get_liq_of_body_ok _ _ _ _ ?_
      rw [liqBody_of_pre df _ fc sd ed hpre]
      have hfndLiq : findColsLiq (preprocessPure df fc).cols =
          .ok (lastP procMatchL (preprocessPure df fc).cols none,
            match lastP pubOnlyL (preprocessPure df fc).cols none with
            | some c => some c
            | none => findExactRen (preprocessPure df fc).cols) := by
        rw [findColsLiq_eq]
        exact hfnd
      exact liqAfterPre_unres _ fc sd ed _ hfndLiq hnone
  · push_neg at hstr
    obtain ⟨c, hm, hs⟩ := hstr
    have hb : isStrLabel c = false := by
      cases hv : isStrLabel c
      · rfl
      · exact absurd hv hs
    cases hfe : findFecha df.cols with
    | error e =>
      have hpre := preprocess_dates_err df e hfe
      exact ⟨get_reneg_of_body_err df e sd ed (renegBody_err_pre df e sd ed hpre),
        get_liq_of_body_err df e sd ed (liqBody_err_pre df e sd ed hpre)⟩
    | ok fopt =>
      have hpre := preprocess_dates_ok df fopt hfe
      have hcols := preprocessPure_cols df (fopt.getD (Label.str "Fecha Publicación"))
      have herr : findColsRen
          (preprocessPure df (fopt.getD (Label.str "Fecha Publicación"))).cols =
          .error PyErr.attributeError := by
        refine findColsRen_err _ ⟨c, ?_, hb⟩
        rw [hcols]
        exact hm
      constructor
      · refine get_reneg_of_body_err df PyErr.attributeError sd ed ?_
        rw [renegBody_of_pre df _ _ sd ed hpre]
        exact renegAfterPre_err _ _ sd ed _ herr
      · refine get_liq_of_body_err df PyErr.attributeError sd ed ?_
        rw [liqBody_of_pre df _ _ sd ed hpre]
        refine liqAfterPre_err _ _ sd ed _ ?_
        rw [findColsLiq_eq]
        exact herr

/-- Witness for C5 at a frame whose columns are "Foo" and "Bar". -/
theorem C5_unresolved_empty_witness :
    get_renegociaciones_data dfNoCols none none = DataFrame.empty ∧
    get_liquidaciones_data dfNoCols none none = DataFrame.empty ∧
    (get_renegociaciones_data dfNoCols none none).rows.length = 0 ∧
    (get_liquidaciones_data dfNoCols none none).rows.length = 0 :=
  C5_unresolved_empty dfNoCols none none (Or.inl (by decide))

/-- Claim C6: with the columns and the publication-date column resolved, the
date filter is a no-op unless both bounds are supplied; with both bounds it
keeps exactly the category rows whose parsed date lies in the inclusive
range, excluding rows whose date failed to parse (NaT); a matching row dated
exactly on either bound is retained. -/
theorem C6_date_range (df dfp : DataFrame) (fc p b : Label) (s e : Date)
    (hpre : preprocess_dates df = .ok (dfp, fc))
    (hres : findColsRen dfp.cols = .ok (some p, some b))
    (hf : fc ∈ dfp.cols) :
    (∀ sd ed : Option Date, sd = none ∨ ed = none →
      (get_renegociaciones_data df sd ed).rows =
        dfp.rows.filter (renegRowPred dfp.cols p b) ∧
      (get_liquidaciones_data df sd ed).rows =
        dfp.rows.filter (liqRowPred dfp.cols p b)) ∧
    ((get_renegociaciones_data df (some s) (some e)).rows =
      dfp.rows.filter (fun r => renegRowPred dfp.cols p b r &&
        dateRowPred dfp.cols fc s e r)) ∧
    ((get_liquidaciones_data df (some s) (some e)).rows =
      dfp.rows.filter (fun r => liqRowPred dfp.cols p b r &&
        dateRowPred dfp.cols fc s e r)) ∧
    (∀ r ∈ dfp.rows, rowCell dfp.cols r fc = Cell.null →
      r ∉ (get_renegociaciones_data df (some s) (some e)).rows) ∧
    (∀ r ∈ dfp.rows,
      (rowCell dfp.cols r fc = Cell.date s ∨ rowCell dfp.cols r fc = Cell.date e) →
      renegRowPred dfp.cols p b r = true → Date.leb s e = true →
      r ∈ (get_renegociaciones_data df (some s) (some e)).rows) := by
  have hstr := findColsRen_allStr_of_ok _ _ hres
  obtain ⟨hp, hb⟩ := findColsRen_mem _ _ _ hres hstr
  have hres2 : findColsLiq dfp.cols = .ok (some p, some b) := by
    rw [findColsLiq_eq]; exact hres
  have hshape := preprocess_dates_shape df dfp fc hpre
  have hdt : ∀ r ∈ dfp.rows, isDatetimeCell (rowCell dfp.cols r fc) = true := by
    rw [hshape] at hf ⊢
    exact preprocessPure_datetime df fc hf
  have hgetd : get_renegociaciones_data df (some s) (some e) =
      ⟨dfp.cols, dfp.rows.filter (fun r => renegRowPred dfp.cols p b r &&
        dateRowPred dfp.cols fc s e r)⟩ :=
    get_reneg_of_body_ok _ _ _ _
      (by rw [renegBody_of_pre df dfp fc _ _ hpre,
        renegAfterPre_date dfp fc p b s e hres hp hb hf hdt])
  refine ⟨?_, by rw [hgetd], ?_, ?_, ?_⟩
  · intro sd ed hno
    constructor
    · rw [get_reneg_of_body_ok _ _ _ _
        (by rw [renegBody_of_pre df dfp fc sd ed hpre,
          renegAfterPre_noDate dfp fc p b sd ed hres hp hb hno])]
    · rw [get_liq_of_body_ok _ _ _ _
        (by rw [liqBody_of_pre df dfp fc sd ed hpre,
          liqAfterPre_noDate dfp fc p b sd ed hres2 hp hb hno])]
  · rw [get_liq_of_body_ok _ _ _ _
      (by rw [liqBody_of_pre df dfp fc _ _ hpre,
        liqAfterPre_date dfp fc p b s e hres2 hp hb hf hdt])]
  · intro r _ hnull hmem
    rw [hgetd] at hmem
    have := (List.mem_filter.mp hmem).2
    rw [Bool.and_eq_true] at this
    have hd := this.2
    rw [dateRowPred, hnull] at hd
    exact absurd hd (by simp)
  · intro r hr hcell hpred hse
    rw [hgetd]
    refine List.mem_filter.mpr ⟨hr, ?_⟩
    rw [Bool.and_eq_true]
    refine ⟨hpred, ?_⟩
    rcases hcell with hc | hc <;> rw [dateRowPred, hc]
    · simpa [Date.leb_refl] using hse
    · simp [Date.leb_refl, hse]

/-- Witness for C6 at three dated records with both bounds equal to the
earliest date: only the record dated exactly on the bound survives; the
later record and the unparseable one are dropped. -/
theorem C6_date_range_witness :
    ((get_renegociaciones_data dfDates
        (some ⟨2025, 1, 15⟩) (some ⟨2025, 1, 15⟩)).rows =
      dfDatesPre.rows.filter (fun r =>
        renegRowPred dfDatesPre.cols (Label.str "Procedimiento Concursal")
          (Label.str "Nombre Publicación") r &&
        dateRowPred dfDatesPre.cols (Label.str "Fecha Publicación")
          ⟨2025, 1, 15⟩ ⟨2025, 1, 15⟩ r)) ∧
    (get_renegociaciones_data dfDates
        (some ⟨2025, 1, 15⟩) (some ⟨2025, 1, 15⟩)).rows =
      [[Cell.str "Renegociación - Persona Deudora",
        Cell.str "Resolución de admisibilidad", Cell.date ⟨2025, 1, 15⟩]] :=
  ⟨(C6_date_range dfDates dfDatesPre (Label.str "Fecha Publicación")
      (Label.str "Procedimiento Concursal") (Label.str "Nombre Publicación")
      ⟨2025, 1, 15⟩ ⟨2025, 1, 15⟩ (by decide) (by decide) (by decide)).2.1,
   by decide⟩

/-- Claim C3: with `force_update=False`, an existing cache file larger than
100 bytes short-circuits the pipeline: the parsed cache is returned and no
download tier is attempted. -/
theorem C3_cache_short_circuit (env : ScraperEnv)
    (hex : env.cacheExists = true) (hsz : 100 < env.cacheSize) :
    update_data env false = (env.cacheParse, []) := by
  have hhas : has_existing_data env = true := by
    simp [has_existing_data, hex, hsz]
  unfold update_data
  rw [if_pos (by simp [hhas])]
  simp [get_csv_data, hex]

/-- Witness for C3 at a concrete environment with a 150-byte cache. -/
theorem C3_cache_short_circuit_witness :
    update_data envC3 false = (some sampleDf, []) :=
  C3_cache_short_circuit envC3 rfl (by decide)

/-- Claim C4: whenever the Selenium tier does not succeed and the direct
tier does not succeed (each failing or raising), the pipeline returns the
parsed pre-existing cache if a valid cache exists and `None` otherwise; and
no call of the pipeline ever invokes the synthetic-sample generator. -/
theorem C4_tier_exhaustion :
    (∀ env : ScraperEnv, ∀ force : Bool,
      env.seleniumOutcome ≠ some true →
      (env.fallbackImportable = true → env.directOutcome ≠ some true) →
      (update_data env force).1 =
        (if has_existing_data env then get_csv_data env else none)) ∧
    (∀ env : ScraperEnv, ∀ force : Bool,
      Tier.sample ∉ (update_data env force).2) := by
  constructor
  · intro env force hsel hdir
    unfold update_data
    by_cases hex : (!force && has_existing_data env) = true
    · rw [if_pos hex]
      rw [(Bool.and_eq_true _ _).mp hex |>.2]
      simp
    · rw [if_neg hex]
      cases hsl : env.seleniumOutcome with
      | some bb =>
        cases bb with
        | true => exact absurd hsl hsel
        | false =>
          cases him : env.fallbackImportable with
          | false => simp
          | true =>
            cases hdo : env.directOutcome with
            | some b2 =>
              cases b2 with
              | true => exact absurd hdo (hdir him)
              | false => simp
            | none => simp
      | none =>
        cases him : env.fallbackImportable with
        | false => simp
        | true =>
          cases hdo : env.directOutcome with
          | some b2 =>
            cases b2 with
            | true => exact absurd hdo (hdir him)
            | false => simp
          | none => simp
  · intro env force
    unfold update_data
    by_cases hex : (!force && has_existing_data env) = true
    · rw [if_pos hex]
      simp
    · rw [if_neg hex]
      cases hsl : env.seleniumOutcome with
      | some bb =>
        cases bb with
        | true => simp
        | false =>
          cases him : env.fallbackImportable with
          | false => simp
          | true =>
            cases hdo : env.directOutcome with
            | some b2 => cases b2 <;> simp
            | none => simp
      | none =>
        cases him : env.fallbackImportable with
        | false => simp
        | true =>
          cases hdo : env.directOutcome with
          | some b2 => cases b2 <;> simp
          | none => simp

/-- Witness for C4 at a concrete environment: Selenium fails, the direct
tier raises, and the pipeline hands back the parsed pre-existing cache. -/
theorem C4_tier_exhaustion_witness :
    (update_data envC4 true).1 = some sampleDf ∧
    Tier.sample ∉ (update_data envC4 true).2 :=
  ⟨C4_tier_exhaustion.1 envC4 true (by decide) (by decide),
   C4_tier_exhaustion.2 envC4 true⟩

/-! ## Heap lemmas for the no-mutation claim -/

theorem getD_append_self {α : Type} (l : List α) (x d : α) :
    (l ++ [x]).getD l.length d = x := by
  induction l with
  | nil => rfl
  | cons a t ih => simp [ih]

theorem set_append_length {α : Type} (l : List α) (x v : α) :
    (l ++ [x]).set l.length v = l ++ [v] := by
  induction l with
  | nil => rfl
  | cons a t ih => simp [ih]

theorem preprocessH_err (h : List DataFrame) (i : Nat) (e : PyErr)
    (hf : findFecha ((h.getD i DataFrame.empty).cols) = .error e) :
    preprocessH h i = .error e := by
  simp only [preprocessH, copyFrame]
  rw [getD_append_self, hf]
  rfl

theorem preprocessH_ok (h : List DataFrame) (i : Nat) (fopt : Option Label)
    (hf : findFecha ((h.getD i DataFrame.empty).cols) = .ok fopt) :
    preprocessH h i = .ok
      (h ++ [preprocessPure (h.getD i DataFrame.empty)
               (fopt.getD (Label.str "Fecha Publicación"))],
       h.length, fopt.getD (Label.str "Fecha Publicación")) := by
  simp only [preprocessH, copyFrame]
  rw [getD_append_self, hf]
  show (if (fopt.getD (Label.str "Fecha Publicación")) ∈ (h.getD i DataFrame.empty).cols then
      (if isDatetimeDtype (getCol (h.getD i DataFrame.empty)
            (fopt.getD (Label.str "Fecha Publicación"))) then
        pure (h ++ [h.getD i DataFrame.empty], h.length,
          fopt.getD (Label.str "Fecha Publicación"))
      else
        pure (writeColAt (h ++ [h.getD i DataFrame.empty]) h.length
            (fopt.getD (Label.str "Fecha Publicación")) toDatetimeCoerce,
          h.length, fopt.getD (Label.str "Fecha Publicación")))
    else pure (h ++ [h.getD i DataFrame.empty], h.length,
      fopt.getD (Label.str "Fecha Publicación"))) = _
  unfold preprocessPure writeColAt
  split
  · split
    · rfl
    · rw [getD_append_self, set_append_length]
      rfl
  · rfl

/-- Claim C9: the classify calls never mutate the caller's frame: in the
heap-level model every frame the caller can see is unchanged after the call
(the date conversion writes only the `df.copy()` frame), and the returned
value coincides with the value-level functions. -/
theorem C9_no_mutation :
    ∀ (h : List DataFrame) (i : Nat) (sd ed : Option Date),
      ((get_renegociaciones_dataH h i sd ed).2.take h.length = h ∧
       (get_renegociaciones_dataH h i sd ed).1 =
         get_renegociaciones_data (h.getD i DataFrame.empty) sd ed) ∧
      ((get_liquidaciones_dataH h i sd ed).2.take h.length = h ∧
       (get_liquidaciones_dataH h i sd ed).1 =
         get_liquidaciones_data (h.getD i DataFrame.empty) sd ed) := by
  intro h i sd ed
  cases hf : findFecha ((h.getD i DataFrame.empty).cols) with
  | error e =>
    have hH := preprocessH_err h i e hf
    have hpre := preprocess_dates_err (h.getD i DataFrame.empty) e hf
    have hrH : get_renegociaciones_dataH h i sd ed =
        (DataFrame.empty, (copyFrame h i).1) := by
      unfold get_renegociaciones_dataH
      rw [hH]
    have hlH : get_liquidaciones_dataH h i sd ed =
        (DataFrame.empty, (copyFrame h i).1) := by
      unfold get_liquidaciones_dataH
      rw [hH]
    have htake : (copyFrame h i).1.take h.length = h := by
      unfold copyFrame
      exact List.take_left h _
    refine ⟨⟨by rw [hrH]; exact htake, ?_⟩, ⟨by rw [hlH]; exact htake, ?_⟩⟩
    · rw [hrH, get_reneg_of_body_err _ e sd ed (renegBody_err_pre _ e sd ed hpre)]
    · rw [hlH, get_liq_of_body_err _ e sd ed (liqBody_err_pre _ e sd ed hpre)]
  | ok fopt =>
    have hH := preprocessH_ok h i fopt hf
    have hpre := preprocess_dates_ok (h.getD i DataFrame.empty) fopt hf
    have htake : (h ++ [preprocessPure (h.getD i DataFrame.empty)
        (fopt.getD (Label.str "Fecha Publicación"))]).take h.length = h :=
      List.take_left h _
    have hrest : renegRestH
        (h ++ [preprocessPure (h.getD i DataFrame.empty)
          (fopt.getD (Label.str "Fecha Publicación"))]) h.length
        (fopt.getD (Label.str "Fecha Publicación")) sd ed =
        renegAfterPre (preprocessPure (h.getD i DataFrame.empty)
          (fopt.getD (Label.str "Fecha Publicación")))
          (fopt.getD (Label.str "Fecha Publicación")) sd ed := by
      unfold renegRestH
      rw [getD_append_self]
    have hrestL : liqRestH
        (h ++ [preprocessPure (h.getD i DataFrame.empty)
          (fopt.getD (Label.str "Fecha Publicación"))]) h.length
        (fopt.getD (Label.str "Fecha Publicación")) sd ed =
        liqAfterPre (preprocessPure (h.getD i DataFrame.empty)
          (fopt.getD (Label.str "Fecha Publicación")))
          (fopt.getD (Label.str "Fecha Publicación")) sd ed := by
      unfold liqRestH
      rw [getD_append_self]
    have hbody := renegBody_of_pre (h.getD i DataFrame.empty) _ _ sd ed hpre
    have hbodyL := liqBody_of_pre (h.getD i DataFrame.empty) _ _ sd ed hpre
    constructor
    · cases hra : renegAfterPre (preprocessPure (h.getD i DataFrame.empty)
          (fopt.getD (Label.str "Fecha Publicación")))
          (fopt.getD (Label.str "Fecha Publicación")) sd ed with
      | ok res =>
        have hrH : get_renegociaciones_dataH h i sd ed =
            (res, h ++ [preprocessPure (h.getD i DataFrame.empty)
              (fopt.getD (Label.str "Fecha Publicación"))]) := by
          unfold get_renegociaciones_dataH
          rw [hH]
          show (match renegRestH _ _ _ sd ed with
            | .ok r => (r, _)
            | .error _ => (DataFrame.empty, _)) = _
          rw [hrest, hra]
        refine ⟨by rw [hrH]; exact htake, ?_⟩
        rw [hrH, get_reneg_of_body_ok _ res sd ed (by rw [hbody, hra])]
      | error e =>
        have hrH : get_renegociaciones_dataH h i sd ed =
            (DataFrame.empty, h ++ [preprocessPure (h.getD i DataFrame.empty)
              (fopt.getD (Label.str "Fecha Publicación"))]) := by
          unfold get_renegociaciones_dataH
          rw [hH]
          show (match renegRestH _ _ _ sd ed with
            | .ok r => (r, _)
            | .error _ => (DataFrame.empty, _)) = _
          rw [hrest, hra]
        refine ⟨by rw [hrH]; exact htake, ?_⟩
        rw [hrH, get_reneg_of_body_err _ e sd ed (by rw [hbody, hra])]
    · cases hra : liqAfterPre (preprocessPure (h.getD i DataFrame.empty)
          (fopt.getD (Label.str "Fecha Publicación")))
          (fopt.getD (Label.str "Fecha Publicación")) sd ed with
      | ok res =>
        have hlH : get_liquidaciones_dataH h i sd ed =
            (res, h ++ [preprocessPure (h.getD i DataFrame.empty)
              (fopt.getD (Label.str "Fecha Publicación"))]) := by
          unfold get_liquidaciones_dataH
          rw [hH]
          show (match liqRestH _ _ _ sd ed with
            | .ok r => (r, _)
            | .error _ => (DataFrame.empty, _)) = _
          rw [hrestL, hra]
        refine ⟨by rw [hlH]; exact htake, ?_⟩
        rw [hlH, get_liq_of_body_ok _ res sd ed (by rw [hbodyL, hra])]
      | error e =>
        have hlH : get_liquidaciones_dataH h i sd ed =
            (DataFrame.empty, h ++ [preprocessPure (h.getD i DataFrame.empty)
              (fopt.getD (Label.str "Fecha Publicación"))]) := by
          unfold get_liquidaciones_dataH
          rw [hH]
          show (match liqRestH _ _ _ sd ed with
            | .ok r => (r, _)
            | .error _ => (DataFrame.empty, _)) = _
          rw [hrestL, hra]
        refine ⟨by rw [hlH]; exact htake, ?_⟩
        rw [hlH, get_liq_of_body_err _ e sd ed (by rw [hbodyL, hra])]

/-! ## Lemmas about the direct-HTTP tier -/

theorem tryUrls_written (env : HttpEnv) (urls : List String) (b : String)
    (h : (tryUrls env urls).written = some b) :
    ∃ u ∈ urls, ∃ r : HttpResponse,
      env.getResp u = some r ∧ acceptGet r = true ∧ b = r.body := by
  induction urls with
  | nil => exact absurd h (by simp [tryUrls])
  | cons u rest ih =>
    unfold tryUrls at h
    cases hg : env.getResp u with
    | none =>
      rw [hg] at h
      obtain ⟨u2, hu2, r, hr⟩ := ih h
      exact ⟨u2, List.mem_cons_of_mem _ hu2, r, hr⟩
    | some resp =>
      rw [hg] at h
      replace h : (if acceptGet resp = true then
          (⟨true, some resp.body, [u]⟩ : DlResult)
        else
          ⟨(tryUrls env rest).success, (tryUrls env rest).written,
            u :: (tryUrls env rest).tried⟩).written = some b := h
      by_cases ha : acceptGet resp = true
      · rw [if_pos ha] at h
        exact ⟨u, by simp, resp, hg, ha, (Option.some.inj h).symm⟩
      · rw [if_neg ha] at h
        obtain ⟨u2, hu2, r, hr⟩ := ih h
        exact ⟨u2, List.mem_cons_of_mem _ hu2, r, hr⟩

theorem tryUrls_tried (env : HttpEnv) (urls : List String) :
    (tryUrls env urls).tried.Sublist urls := by
  induction urls with
  | nil => simp [tryUrls]
  | cons u rest ih =>
    unfold tryUrls
    cases hg : env.getResp u with
    | none => exact ih.cons₂ u
    | some resp =>
      show (if acceptGet resp = true then
          (⟨true, some resp.body, [u]⟩ : DlResult)
        else
          ⟨(tryUrls env rest).success, (tryUrls env rest).written,
            u :: (tryUrls env rest).tried⟩).tried.Sublist (u :: rest)
      by_cases ha : acceptGet resp = true
      · rw [if_pos ha]
        exact (List.nil_sublist rest).cons₂ u
      · rw [if_neg ha]
        exact ih.cons₂ u

theorem tryPosts_written (env : HttpEnv) (idxs : List Nat) (b : String)
    (h : tryPosts env idxs = some b) :
    ∃ i ∈ idxs, ∃ r : HttpResponse,
      env.postResp i = some r ∧ acceptPost r = true ∧ b = r.body := by
  induction idxs with
  | nil => exact absurd h (by simp [tryPosts])
  | cons i rest ih =>
    unfold tryPosts at h
    cases hp : env.postResp i with
    | none =>
      rw [hp] at h
      exact absurd h (by simp)
    | some resp =>
      rw [hp] at h
      replace h : (if acceptPost resp = true then some resp.body
        else tryPosts env rest) = some b := h
      by_cases ha : acceptPost resp = true
      · rw [if_pos ha] at h
        exact ⟨i, by simp, resp, hp, ha, (Option.some.inj h).symm⟩
      · rw [if_neg ha] at h
        obtain ⟨i2, hi2, r, hr⟩ := ih h
        exact ⟨i2, List.mem_cons_of_mem _ hi2, r, hr⟩

theorem postPhase_written (env : HttpEnv) (r : DlResult) (b : String)
    (h : (postPhase env r).written = some b) :
    ∃ i ∈ [0, 1, 2, 3, 4], ∃ resp : HttpResponse,
      env.postResp i = some resp ∧ acceptPost resp = true ∧ b = resp.body := by
  unfold postPhase at h
  cases hp : tryPosts env [0, 1, 2, 3, 4] with
  | none =>
    rw [hp] at h
    exact absurd h (by simp)
  | some b2 =>
    rw [hp] at h
    replace h : some b2 = some b := h
    obtain rfl : b2 = b := Option.some.inj h
    exact tryPosts_written env _ b2 hp

theorem postPhase_tried (env : HttpEnv) (r : DlResult) :
    (postPhase env r).tried = r.tried := by
  unfold postPhase
  cases tryPosts env [0, 1, 2, 3, 4] <;> rfl

theorem download_written (env : HttpEnv) (b : String)
    (h : (download_csv_direct env).written = some b) :
    (∃ u ∈ potentialCsvUrls, ∃ r : HttpResponse,
      env.getResp u = some r ∧ acceptGet r = true ∧ b = r.body) ∨
    (∃ i ∈ [0, 1, 2, 3, 4], ∃ r : HttpResponse,
      env.postResp i = some r ∧ acceptPost r = true ∧ b = r.body) := by
  unfold download_csv_direct at h
  cases hw : env.dataDirWritable with
  | false =>
    rw [hw] at h
    exact absurd h (by simp)
  | true =>
    rw [hw] at h
    cases hm : env.mainPage with
    | none =>
      rw [hm] at h
      exact absurd h (by simp)
    | some mp =>
      rw [hm] at h
      replace h : (if 400 ≤ mp.status then (⟨false, none, []⟩ : DlResult)
        else
          if (tryUrls env potentialCsvUrls).success = true then
            tryUrls env potentialCsvUrls
          else postPhase env (tryUrls env potentialCsvUrls)).written = some b := h
      by_cases hst : 400 ≤ mp.status
      · rw [if_pos hst] at h
        exact absurd h (by simp)
      · rw [if_neg hst] at h
        by_cases hs : (tryUrls env potentialCsvUrls).success = true
        · rw [if_pos hs] at h
          exact Or.inl (tryUrls_written env potentialCsvUrls b h)
        · rw [if_neg hs] at h
          exact Or.inr (postPhase_written env _ b h)

theorem download_tried (env : HttpEnv) :
    (download_csv_direct env).tried.Sublist potentialCsvUrls := by
  unfold download_csv_direct
  cases hw : env.dataDirWritable with
  | false => exact List.nil_sublist _
  | true =>
    cases hm : env.mainPage with
    | none => exact List.nil_sublist _
    | some mp =>
      show (if 400 ≤ mp.status then (⟨false, none, []⟩ : DlResult)
        else
          if (tryUrls env potentialCsvUrls).success = true then
            tryUrls env potentialCsvUrls
          else postPhase env (tryUrls env potentialCsvUrls)).tried.Sublist
        potentialCsvUrls
      by_cases hst : 400 ≤ mp.status
      · rw [if_pos hst]
        exact List.nil_sublist _
      · rw [if_neg hst]
        by_cases hs : (tryUrls env potentialCsvUrls).success = true
        · rw [if_pos hs]
          exact tryUrls_tried env potentialCsvUrls
        · rw [if_neg hs]
          rw [postPhase_tried]
          exact tryUrls_tried env potentialCsvUrls

/-- Claim C8 as amended: a body is written to the cache only for an accepted
response, and the acceptance conditions are: for a GET on a guessed endpoint,
status 200, CSV-suggesting content type and the text-shape heuristic with the
50-character minimum on the stripped 1000-character preview; for a POST,
status 200, CSV-suggesting content type and a comma and newline in the
500-character preview (no length minimum); the written body is the response
body verbatim, and no guessed URL is ever GET-requested twice. -/
theorem C8_http_acceptance :
    (∀ env : HttpEnv, ∀ b : String, (download_csv_direct env).written = some b →
      (∃ u ∈ potentialCsvUrls, ∃ r : HttpResponse, env.getResp u = some r ∧
        r.status = 200 ∧ ctOkGet r.contentType = true ∧ heurGet r.body = true ∧
        b = r.body) ∨
      (∃ i ∈ [0, 1, 2, 3, 4], ∃ r : HttpResponse, env.postResp i = some r ∧
        r.status = 200 ∧ ctOkPost r.contentType = true ∧ heurPost r.body = true ∧
        b = r.body)) ∧
    (∀ env : HttpEnv, ∀ u : String, (download_csv_direct env).tried.count u ≤ 1) := by
  constructor
  · intro env b h
    rcases download_written env b h with ⟨u, hu, r, hg, ha, hb⟩ | ⟨i, hi, r, hp, ha, hb⟩
    · left
      obtain ⟨⟨h1, h2⟩, h3⟩ :
          (r.status = 200 ∧ ctOkGet r.contentType = true) ∧ heurGet r.body = true := by
        simpa [acceptGet, Bool.and_eq_true, decide_eq_true_eq] using ha
      exact ⟨u, hu, r, hg, h1, h2, h3, hb⟩
    · right
      obtain ⟨⟨h1, h2⟩, h3⟩ :
          (r.status = 200 ∧ ctOkPost r.contentType = true) ∧ heurPost r.body = true := by
        simpa [acceptPost, Bool.and_eq_true, decide_eq_true_eq] using ha
      exact ⟨i, hi, r, hp, h1, h2, h3, hb⟩
  · intro env u
    have hnd : potentialCsvUrls.Nodup := by decide
    have hnd2 := List.Nodup.sublist (download_tried env) hnd
    exact List.nodup_iff_count_le_one.mp hnd2 u

/-- Counterexample to claim C8 as stated: in `envPostAccept` all guessed GETs
answer 404, and the first POST variant answers 200 `text/csv` with the
seven-character body "a,b\nc,d"; the tier accepts it and writes it although
its stripped preview is far below the 50-character minimum the claim requires
of every accepted response. -/
theorem C8_http_acceptance_counterexample :
    (download_csv_direct envPostAccept).written = some "a,b\nc,d" ∧
    (stripStr (takeChars "a,b\nc,d" 1000)).length ≤ 50 := by
  exact ⟨by decide, by decide⟩

/-- Witness for the amended C8: in `envGetAccept` the first guessed endpoint
serves a valid CSV; the written body satisfies the GET acceptance conditions
and no guessed URL is requested twice. -/
theorem C8_http_acceptance_witness :
    (download_csv_direct envGetAccept).written = some csvBody ∧
    ((∃ u ∈ potentialCsvUrls, ∃ r : HttpResponse, envGetAccept.getResp u = some r ∧
        r.status = 200 ∧ ctOkGet r.contentType = true ∧ heurGet r.body = true ∧
        csvBody = r.body) ∨
     (∃ i ∈ [0, 1, 2, 3, 4], ∃ r : HttpResponse, envGetAccept.postResp i = some r ∧
        r.status = 200 ∧ ctOkPost r.contentType = true ∧ heurPost r.body = true ∧
        csvBody = r.body)) ∧
    (download_csv_direct envGetAccept).tried.count
      "https://www.boletinconcursal.cl/boletin/procedimientos/export/csv" ≤ 1 :=
  ⟨by decide, C8_http_acceptance.1 envGetAccept csvBody (by decide),
   C8_http_acceptance.2 envGetAccept _⟩

/-- Counterexample to claim C10 as stated: with headers "Nombre Publicación"
and "Nombre Publicación Procedimiento Concursal", both names match the
publication-label tokens; the last matching column in header order is the
second one, but resolution assigns the publication role to the first (the
second is captured by the procedure branch of the `elif`). -/
theorem C10_resolution_counterexample :
    pubMatchL (Label.str "Nombre Publicación") = true ∧
    pubMatchL (Label.str "Nombre Publicación Procedimiento Concursal") = true ∧
    lastP pubMatchL [Label.str "Nombre Publicación",
      Label.str "Nombre Publicación Procedimiento Concursal"] none =
      some (Label.str "Nombre Publicación Procedimiento Concursal") ∧
    findColsRen [Label.str "Nombre Publicación",
      Label.str "Nombre Publicación Procedimiento Concursal"] =
      .ok (some (Label.str "Nombre Publicación Procedimiento Concursal"),
           some (Label.str "Nombre Publicación")) ∧
    some (Label.str "Nombre Publicación") ≠
      some (Label.str "Nombre Publicación Procedimiento Concursal") :=
  ⟨by decide, by decide, by decide, by decide, by decide⟩

/-- Claim C10 as amended: on all-string headers, resolution yields, for the
procedure role, the last column matching the procedure tokens, and for the
publication role, the last column matching the publication tokens that does
not also match the procedure tokens (the `elif`), falling back to the first
exactly-named column when there is none; and the two category filters use
the identical resolution rule. -/
theorem C10_resolution_amended :
    (∀ cols : List Label, (∀ c ∈ cols, isStrLabel c = true) →
      findColsRen cols = .ok (lastP procMatchL cols none,
        match lastP pubOnlyL cols none with
        | some c => some c
        | none => findExactRen cols)) ∧
    (∀ cols : List Label, findColsLiq cols = findColsRen cols) :=
  ⟨findColsRen_allStr, findColsLiq_eq⟩

/-- Witness for the amended C10 on headers with two procedure-token matches:
the later procedure column wins, overwriting the earlier one. -/
theorem C10_resolution_amended_witness :
    findColsRen [Label.str "Procedimiento Concursal",
      Label.str "Tipo Procedimiento Concursal", Label.str "Nombre Publicación"] =
      .ok (some (Label.str "Tipo Procedimiento Concursal"),
           some (Label.str "Nombre Publicación")) := by
  have h := C10_resolution_amended.1 [Label.str "Procedimiento Concursal",
    Label.str "Tipo Procedimiento Concursal", Label.str "Nombre Publicación"] (by decide)
  rw [h]
  decide
